import Mathlib

/-!
Verification development for the DataVitals preprocessing core
(`backend/ops/cleaning_ops.py`, `backend/ops/feature_ops.py`,
`backend/core/cleaning/executor.py`, `backend/core/cleaning/validator.py`).

The Python code is shallowly embedded: pandas `DataFrame`s become a record of
column names and rows of cell values, Python/JSON values passed in plans
become the inductive `PVal`, numeric cells are modelled exactly with `ℚ`
(the source uses IEEE floats; no claim depends on rounding), and any code
path that raises a Python exception is modelled with `Except String`.
-/

/-- Cell values of a modelled pandas DataFrame.
`na` models NaN/NaT missing values.  `zscored x m v` symbolically represents
the value `(x - m) / √v` produced by sklearn's `StandardScaler`
(the square root of a rational is not representable in `ℚ`; no claim
inspects scaled values).  `dt` models a pandas datetime cell. -/
inductive Value where
  | num (q : ℚ)
  | str (s : String)
  | bool (b : Bool)
  | na
  | zscored (x m v : ℚ)
  | dt (year : Int) (month day hour minute second : Nat)
  deriving DecidableEq, Repr

/-- Python/JSON values appearing in plans and step parameters
(`plan.get(...)`, `step.get(...)`, `params.get(...)` in the source).
`none` models Python `None`. -/
inductive PVal where
  | str (s : String)
  | num (q : ℚ)
  | bool (b : Bool)
  | none
  | list (l : List PVal)
  | dict (d : List (String × PVal))
  deriving Repr

/-- Structural (Python `==`) equality on `PVal`. -/
def PVal.beq : PVal → PVal → Bool
  | .str a, .str b => a == b
  | .num a, .num b => a == b
  | .bool a, .bool b => a == b
  | .none, .none => true
  | .list a, .list b => beqList a b
  | .dict a, .dict b => beqDict a b
  | _, _ => false
where
  beqList : List PVal → List PVal → Bool
    | [], [] => true
    | x :: xs, y :: ys => PVal.beq x y && beqList xs ys
    | _, _ => false
  beqDict : List (String × PVal) → List (String × PVal) → Bool
    | [], [] => true
    | (k, x) :: xs, (k', y) :: ys => k == k' && PVal.beq x y && beqDict xs ys
    | _, _ => false

instance : BEq PVal := ⟨PVal.beq⟩

/-- A modelled pandas DataFrame: ordered named columns and rows of cells. -/
structure DataFrame where
  cols : List String
  rows : List (List Value)
  deriving DecidableEq, Repr

/-- `df.shape`: (row count, column count). -/
def DataFrame.shape (df : DataFrame) : Nat × Nat := (df.rows.length, df.cols.length)

/-- Python `dict` lookup on a modelled dict. -/
def dictGet (d : List (String × PVal)) (k : String) : Option PVal :=
  (d.find? (fun kv => kv.1 == k)).map (·.2)

/-- Python `dict.get(k, default)`. -/
def pyGet (d : List (String × PVal)) (k : String) (dflt : PVal) : PVal :=
  (dictGet d k).getD dflt

/-- Cell access with pandas' rectangular invariant (missing cells read as NaN). -/
def cellAt (row : List Value) (i : Nat) : Value := row.getD i .na

/-- Index of a column name, if present. -/
def DataFrame.colIdx (df : DataFrame) (c : String) : Option Nat :=
  df.cols.findIdx? (· == c)

/-- The cells of column `i`, top to bottom. -/
def DataFrame.colVals (df : DataFrame) (i : Nat) : List Value :=
  df.rows.map (fun r => cellAt r i)

/-- Overwrite column `i` with the given cells (one per row). -/
def DataFrame.setCol (df : DataFrame) (i : Nat) (vals : List Value) : DataFrame :=
  { df with rows := (df.rows.zip vals).map (fun rv => rv.1.set i rv.2) }

/-- `df[name] = vals`: replace the column if the label exists, else append it
(pandas column assignment). -/
def DataFrame.assignCol (df : DataFrame) (name : String) (vals : List Value) : DataFrame :=
  match df.colIdx name with
  | some i => df.setCol i vals
  | Option.none =>
    { cols := df.cols ++ [name],
      rows := (df.rows.zip vals).map (fun rv => rv.1 ++ [rv.2]) }

/-- Keep only the columns whose index is in `keep` (in `keep` order). -/
def DataFrame.selectIdxs (df : DataFrame) (keep : List Nat) : DataFrame :=
  { cols := keep.map (fun i => df.cols.getD i ""),
    rows := df.rows.map (fun r => keep.map (cellAt r)) }

/-- pandas `is_numeric_dtype` on a modelled column: a column whose cells are
all numbers-or-NaN has dtype `float64`/`int64`; a column of only booleans has
dtype `bool` (also numeric).  Any other mix is dtype `object` (not numeric;
a bool column containing NaN is also `object`). -/
def colIsNumeric (vals : List Value) : Bool :=
  vals.all (fun v => match v with | .num _ => true | .na => true | _ => false)
    || (!vals.isEmpty && vals.all (fun v => match v with | .bool _ => true | _ => false))

/-- Numeric reading of a cell (Python booleans are numeric). -/
def cellNum? : Value → Option ℚ
  | .num q => some q
  | .bool b => some (if b then 1 else 0)
  | _ => Option.none

/-- The non-missing numeric cells of a column (pandas skips NaN in statistics). -/
def colNums (vals : List Value) : List ℚ := vals.filterMap cellNum?

/-- Arithmetic mean. Callers guard against the empty list (pandas yields NaN). -/
def meanQ (xs : List ℚ) : ℚ := xs.sum / xs.length

/-- Insert into a sorted list (ascending). -/
def insertSorted (x : ℚ) : List ℚ → List ℚ
  | [] => [x]
  | y :: ys => if x ≤ y then x :: y :: ys else y :: insertSorted x ys

/-- Ascending insertion sort on rationals. -/
def sortQ (xs : List ℚ) : List ℚ := xs.foldr insertSorted []

/-- pandas/numpy linear-interpolation quantile of a nonempty value list. -/
def quantileQ (xs : List ℚ) (q : ℚ) : ℚ :=
  let s := sortQ xs
  let n := s.length
  let pos : ℚ := q * (n - 1)
  let i : Nat := pos.floor.toNat
  let frac : ℚ := pos - pos.floor
  if i + 1 < n then s.getD i 0 + frac * (s.getD (i + 1) 0 - s.getD i 0)
  else s.getD (n - 1) 0

/-- Median via pandas' rule (mean of the middle two for even length). -/
def medianQ (xs : List ℚ) : ℚ :=
  let s := sortQ xs
  let n := s.length
  if n % 2 = 1 then s.getD (n / 2) 0
  else (s.getD (n / 2 - 1) 0 + s.getD (n / 2) 0) / 2

/-- pandas elementwise scalar equality (`Series == v`): NaN equals nothing,
Python numerics compare across `int`/`float`/`bool`. -/
def valueEqPV (c : Value) : PVal → Bool
  | .str s => match c with | .str a => a == s | _ => false
  | .num q => (cellNum? c).any (· == q)
  | .bool b => (cellNum? c).any (· == (if b then (1 : ℚ) else 0))
  | _ => false

/-- `Series.isin` membership of a cell in a list of plan values
(NaN matches an explicit null in the list). -/
def isinMatch (c : Value) (l : List PVal) : Bool :=
  l.any (fun pv => match c, pv with
    | .na, .none => true
    | c, pv => valueEqPV c pv)

/-- Timestamp-like sort key for modelled datetime cells. -/
def dtKey : Value → ℚ
  | .dt y mo d h mi s => ((((((y : ℚ) * 12 + mo) * 31 + d) * 24 + h) * 60 + mi) * 60 + s)
  | _ => 0

/-- Rank used only to separate value kinds when ordering. -/
def valueRank : Value → Nat
  | .num _ => 0
  | .bool _ => 0
  | .str _ => 1
  | .dt .. => 2
  | .na => 3
  | .zscored .. => 4

/-- Total order on cell values used where pandas sorts values: numbers and
booleans by numeric value, strings lexicographically, datetimes
chronologically.  The cross-kind order is a deterministic modelling choice;
mixed-kind sorts raise in pandas and are rejected before sorting. -/
def valueLe (a b : Value) : Bool :=
  match cellNum? a, cellNum? b with
  | some x, some y => decide (x ≤ y)
  | _, _ =>
    match a, b with
    | .str x, .str y => !(decide (y < x))
    | .dt .., .dt .. => decide (dtKey a ≤ dtKey b)
    | _, _ => decide (valueRank a ≤ valueRank b)

/-- Stable insertion into a `le`-sorted list (equal keys keep earlier elements first). -/
def insertSortedBy {α : Type} (lt : α → α → Bool) (x : α) : List α → List α
  | [] => [x]
  | y :: ys => if lt x y then x :: y :: ys else y :: insertSortedBy lt x ys

/-- Stable insertion sort by a boolean `le` relation. -/
def sortRowsBy {α : Type} (le : α → α → Bool) (l : List α) : List α :=
  l.foldr (insertSortedBy (fun x y => le x y && !(le y x))) []

namespace CleaningOperations

/-- Resolve `drop_duplicates`' `subset` parameter to key column indices.
pandas raises `KeyError` when `subset` names a column absent from the frame. -/
def resolveSubset (cols : List String) (params : List (String × PVal)) :
    Except String (List Nat) :=
  match pyGet params "subset" .none with
  | .none => .ok (List.range cols.length)
  | .str s =>
    match cols.findIdx? (· == s) with
    | some i => .ok [i]
    | Option.none => .error ("KeyError: " ++ s)
  | .list l =>
    if l.all (fun v => match v with | .str s => cols.contains s | _ => false) then
      .ok (l.filterMap (fun v => match v with
        | .str s => cols.findIdx? (· == s)
        | _ => Option.none))
    else .error "KeyError: subset columns not found in the DataFrame"
  | _ => .error "KeyError: invalid subset"

/-- The three legal values of `drop_duplicates`' `keep` parameter. -/
inductive KeepMode where
  | first
  | last
  | dropAll
  deriving DecidableEq, Repr

/-- Resolve the `keep` parameter (pandas raises `ValueError` on anything other
than `"first"`, `"last"`, `False`). -/
def resolveKeep (params : List (String × PVal)) : Except String KeepMode :=
  match pyGet params "keep" (.str "first") with
  | .str "first" => .ok .first
  | .str "last" => .ok .last
  | .bool false => .ok .dropAll
  | _ => .error "ValueError: keep must be either first, last or False"

/-- The dedup key of a row: its cells at the subset indices.
pandas' `duplicated` treats NaN keys as equal to each other, as does `=` here. -/
def keyOf (idxs : List Nat) (r : List Value) : List Value := idxs.map (cellAt r)

/-- `keep="first"`: keep the first row of every key, preserving order. -/
def dedupFirst (key : List Value → List Value) :
    List (List Value) → List (List Value) → List (List Value)
  | _, [] => []
  | seen, r :: rs =>
    if key r ∈ seen then dedupFirst key seen rs
    else r :: dedupFirst key (key r :: seen) rs

/-- `keep="last"`: keep the last row of every key, preserving order. -/
def dedupLast (key : List Value → List Value) : List (List Value) → List (List Value)
  | [] => []
  | r :: rs => if key r ∈ rs.map key then dedupLast key rs else r :: dedupLast key rs

/-- `keep=False`: keep only rows whose key occurs exactly once. -/
def dedupAll (key : List Value → List Value) (rows : List (List Value)) :
    List (List Value) :=
  rows.filter (fun r => decide (rows.countP (fun r' => decide (key r' = key r)) = 1))

/-- `CleaningOperations.drop_duplicates` (cleaning_ops.py):
`df.drop_duplicates(subset=params.get("subset"), keep=params.get("keep","first"))`. -/
def drop_duplicates (df : DataFrame) (params : List (String × PVal)) :
    Except String DataFrame :=
  match resolveSubset df.cols params with
  | .error e => .error e
  | .ok idxs =>
    match resolveKeep params with
    | .error e => .error e
    | .ok mode =>
      let rows' := match mode with
        | .first => dedupFirst (keyOf idxs) [] df.rows
        | .last => dedupLast (keyOf idxs) df.rows
        | .dropAll => dedupAll (keyOf idxs) df.rows
      .ok ⟨df.cols, rows'⟩

/-- The values a Python `for x in v` loop yields: list elements, the
characters of a string, a dict's keys; anything else raises `TypeError`. -/
def iterElemsPy : PVal → Except String (List PVal)
  | .list l => .ok l
  | .str s => .ok (s.data.map (fun c => PVal.str (String.mk [c])))
  | .dict d => .ok (d.map (fun kv => PVal.str kv.1))
  | _ => .error "TypeError: object is not iterable"

/-- `CleaningOperations.drop_columns`: drops only the listed columns that
exist (`[col for col in columns if col in df.columns]`), so absent names are
silently ignored. -/
def drop_columns (df : DataFrame) (params : List (String × PVal)) :
    Except String DataFrame :=
  match iterElemsPy (pyGet params "columns" (.list [])) with
  | .error e => .error e
  | .ok elems =>
    let toDrop := elems.filterMap (fun v => match v with
      | .str s => if df.cols.contains s then some s else Option.none
      | _ => Option.none)
    .ok (df.selectIdxs ((List.range df.cols.length).filter
      (fun i => !(toDrop.contains (df.cols.getD i "")))))

/-- `Series.fillna` with a scalar. -/
def fillNa (vals : List Value) (fv : Value) : List Value :=
  vals.map (fun v => if v = .na then fv else v)

/-- Forward fill: each NaN takes the latest preceding non-NaN value. -/
def ffill : Option Value → List Value → List Value
  | _, [] => []
  | last, v :: vs =>
    if v = .na then (last.getD .na) :: ffill last vs else v :: ffill (some v) vs

/-- Scalar fill value for `fillna(value)`; non-scalars raise. -/
def pvalScalar : PVal → Except String Value
  | .str s => .ok (.str s)
  | .num q => .ok (.num q)
  | .bool b => .ok (.bool b)
  | _ => .error "TypeError: fill value must be a scalar"

/-- Keep all distinct values, first occurrences first. -/
def dedupValues (vals : List Value) : List Value :=
  vals.foldl (fun acc v => if v ∈ acc then acc else acc ++ [v]) []

/-- `Series.mode()[0]` when the mode list is nonempty: the smallest among the
most frequent non-NaN values (pandas returns modal values sorted ascending). -/
def modeValue (vals : List Value) : Option Value :=
  let nonNa := vals.filter (fun v => decide (v ≠ .na))
  if nonNa.isEmpty then Option.none
  else
    let cnt := fun v => nonNa.countP (fun w => decide (w = v))
    let maxCount := (nonNa.map cnt).foldr max 0
    (sortRowsBy valueLe ((dedupValues nonNa).filter (fun v => decide (cnt v = maxCount)))).head?

/-- `CleaningOperations.fill_missing`: absent (or non-string) `column` is a
no-op; `mean`/`median` apply only to numeric dtypes; unknown strategies fall
through every branch and return the frame unchanged. -/
def fill_missing (df : DataFrame) (params : List (String × PVal)) :
    Except String DataFrame :=
  match (match pyGet params "column" .none with
         | .str s => df.colIdx s
         | _ => Option.none) with
  | Option.none => .ok df
  | some i =>
    let vals := df.colVals i
    match pyGet params "strategy" (.str "mean") with
    | .str "constant" =>
      match pyGet params "value" .none with
      | .none => .error "ValueError: Must specify a fill value or method."
      | v =>
        match pvalScalar v with
        | .error e => .error e
        | .ok fv => .ok (df.setCol i (fillNa vals fv))
    | .str "mean" =>
      if colIsNumeric vals then
        let ns := colNums vals
        if ns.isEmpty then .ok df
        else .ok (df.setCol i (fillNa vals (.num (meanQ ns))))
      else .ok df
    | .str "median" =>
      if colIsNumeric vals then
        let ns := colNums vals
        if ns.isEmpty then .ok df
        else .ok (df.setCol i (fillNa vals (.num (medianQ ns))))
      else .ok df
    | .str "mode" =>
      match modeValue vals with
      | Option.none => .ok df
      | some m => .ok (df.setCol i (fillNa vals m))
    | .str "forward" => .ok (df.setCol i (ffill Option.none vals))
    | .str "backward" => .ok (df.setCol i ((ffill Option.none vals.reverse).reverse))
    | _ => .ok df

/-- Numeric reading of a parameter used in arithmetic/comparisons
(Python booleans count as numbers; anything else raises `TypeError`). -/
def thrNum : PVal → Except String ℚ
  | .num q => .ok q
  | .bool b => .ok (if b then 1 else 0)
  | _ => .error "TypeError: unsupported operand type"

/-- `CleaningOperations.remove_outliers`.  NaN cells never satisfy the bound
comparisons, so they are dropped along with the outliers.  The `zscore`
branch models `|x-μ|/σ < t` (sample σ) without square roots via the
equivalent `(x-μ)² · (n-1) < t² · Σ(xᵢ-μ)²` together with `n ≥ 2` and
`t > 0` (for `σ = 0`, `n ≤ 1` or `t ≤ 0` the pandas mask is all-False
because the z-score is NaN or negative-threshold, and so is this one).
Methods other than `iqr`/`zscore` (e.g. `isolation_forest`) fall through
and return the frame unchanged. -/
def remove_outliers (df : DataFrame) (params : List (String × PVal)) :
    Except String DataFrame :=
  match (match pyGet params "column" .none with
         | .str s => df.colIdx s
         | _ => Option.none) with
  | Option.none => .ok df
  | some i =>
    let vals := df.colVals i
    if !(colIsNumeric vals) then .ok df
    else
      match pyGet params "method" (.str "iqr") with
      | .str "iqr" =>
        match thrNum (pyGet params "threshold" (.num (3/2))) with
        | .error e => .error e
        | .ok t =>
          let ns := colNums vals
          if ns.isEmpty then .ok { df with rows := [] }
          else
            let q1 := quantileQ ns (1/4)
            let q3 := quantileQ ns (3/4)
            let lo := q1 - t * (q3 - q1)
            let hi := q3 + t * (q3 - q1)
            .ok { df with rows := df.rows.filter (fun r =>
              match cellNum? (cellAt r i) with
              | some x => decide (lo ≤ x) && decide (x ≤ hi)
              | Option.none => false) }
      | .str "zscore" =>
        match thrNum (pyGet params "threshold" (.num (3/2))) with
        | .error e => .error e
        | .ok t =>
          let ns := colNums vals
          let n := ns.length
          let m := meanQ ns
          let S := (ns.map (fun x => (x - m) ^ 2)).sum
          .ok { df with rows := df.rows.filter (fun r =>
            match cellNum? (cellAt r i) with
            | some x =>
              decide (2 ≤ n) && decide (0 < t) &&
                decide ((x - m) ^ 2 * ((n : ℚ) - 1) < t ^ 2 * S)
            | Option.none => false) }
      | _ => .ok df

/-- One ordered scalar comparison between a cell and the filter value,
with pandas semantics: NaN cells compare `False`; comparing a numeric
column with a string (or vice versa, or with `None`) raises `TypeError`. -/
def cmpCell (qop : ℚ → ℚ → Bool) (sop : String → String → Bool)
    (val : PVal) (c : Value) : Except String Bool :=
  match val with
  | .num b =>
    if c = .na then .ok false
    else match cellNum? c with
      | some a => .ok (qop a b)
      | Option.none => .error "TypeError: comparison not supported"
  | .bool bb =>
    if c = .na then .ok false
    else match cellNum? c with
      | some a => .ok (qop a (if bb then 1 else 0))
      | Option.none => .error "TypeError: comparison not supported"
  | .str b =>
    if c = .na then .ok false
    else match c with
      | .str a => .ok (sop a b)
      | _ => .error "TypeError: comparison not supported"
  | _ => .error "TypeError: comparison not supported"

/-- Row filter where evaluating the mask may raise. -/
def filterRowsE (p : List Value → Except String Bool) :
    List (List Value) → Except String (List (List Value))
  | [] => .ok []
  | r :: rs =>
    match p r with
    | .error e => .error e
    | .ok b =>
      match filterRowsE p rs with
      | .error e => .error e
      | .ok l => .ok (if b then r :: l else l)

/-- `CleaningOperations.filter_rows`.  `==`/`!=` compare elementwise and
never raise on kind mismatches; ordered operators follow `cmpCell`;
`in` with a non-list value and unknown operators return the frame
unchanged (the `isinstance`/fall-through branches of the source). -/
def filter_rows (df : DataFrame) (params : List (String × PVal)) :
    Except String DataFrame :=
  match (match pyGet params "column" .none with
         | .str s => df.colIdx s
         | _ => Option.none) with
  | Option.none => .ok df
  | some i =>
    let valueV := pyGet params "value" .none
    match pyGet params "operator" (.str "==") with
    | .str "==" =>
      match valueV with
      | .list _ => .error "ValueError: Lengths must match to compare"
      | .dict _ => .error "TypeError: unhashable"
      | v => .ok { df with rows := df.rows.filter (fun r => valueEqPV (cellAt r i) v) }
    | .str "!=" =>
      match valueV with
      | .list _ => .error "ValueError: Lengths must match to compare"
      | .dict _ => .error "TypeError: unhashable"
      | v => .ok { df with rows := df.rows.filter (fun r => !(valueEqPV (cellAt r i) v)) }
    | .str ">" =>
      (filterRowsE (fun r => cmpCell (fun a b => decide (b < a)) (fun a b => decide (b < a)) valueV (cellAt r i)) df.rows).map
        (fun rs => { df with rows := rs })
    | .str "<" =>
      (filterRowsE (fun r => cmpCell (fun a b => decide (a < b)) (fun a b => decide (a < b)) valueV (cellAt r i)) df.rows).map
        (fun rs => { df with rows := rs })
    | .str ">=" =>
      (filterRowsE (fun r => cmpCell (fun a b => decide (b ≤ a)) (fun a b => !(decide (a < b))) valueV (cellAt r i)) df.rows).map
        (fun rs => { df with rows := rs })
    | .str "<=" =>
      (filterRowsE (fun r => cmpCell (fun a b => decide (a ≤ b)) (fun a b => !(decide (b < a))) valueV (cellAt r i)) df.rows).map
        (fun rs => { df with rows := rs })
    | .str "in" =>
      match valueV with
      | .list l => .ok { df with rows := df.rows.filter (fun r => isinMatch (cellAt r i) l) }
      | _ => .ok df
    | _ => .ok df

/-- `CleaningOperations.sort_by`: stable ascending/descending sort on one
column with NaN rows placed last (pandas `na_position="last"`); mixed-kind
columns raise `TypeError` as pandas' comparison-based sort does.  (pandas'
default quicksort leaves tied rows in unspecified order; the model picks the
stable order.) -/
def sort_by (df : DataFrame) (params : List (String × PVal)) :
    Except String DataFrame :=
  match (match pyGet params "column" .none with
         | .str s => df.colIdx s
         | _ => Option.none) with
  | Option.none => .ok df
  | some i =>
    match (match pyGet params "ascending" (.bool true) with
           | .bool b => Except.ok b
           | .num q => Except.ok (decide (q ≠ 0))
           | _ => Except.error "ValueError: ascending must be a bool") with
    | .error e => .error e
    | .ok asc =>
      let nonNa := (df.colVals i).filter (fun v => decide (v ≠ .na))
      let orderable :=
        nonNa.all (fun v => (cellNum? v).isSome)
          || nonNa.all (fun v => match v with | .str _ => true | _ => false)
          || nonNa.all (fun v => match v with | .dt .. => true | _ => false)
      if !orderable then .error "TypeError: unorderable types"
      else
        let naRows := df.rows.filter (fun r => decide (cellAt r i = .na))
        let rest := df.rows.filter (fun r => decide (cellAt r i ≠ .na))
        let le := fun (r r' : List Value) =>
          if asc then valueLe (cellAt r i) (cellAt r' i)
          else valueLe (cellAt r' i) (cellAt r i)
        .ok { df with rows := sortRowsBy le rest ++ naRows }

/-- `CleaningOperations.handle_missing_rows`: drop rows whose missing-cell
ratio is ≥ threshold.  With zero columns the ratio is `0/0 = NaN`, the pandas
mask `NaN < t` is all-False, and every row is dropped. -/
def handle_missing_rows (df : DataFrame) (params : List (String × PVal)) :
    Except String DataFrame :=
  match thrNum (pyGet params "threshold" (.num (1/2))) with
  | .error e => .error e
  | .ok t =>
    if df.cols.isEmpty then .ok { df with rows := [] }
    else .ok { df with rows := df.rows.filter (fun r =>
      decide ((((List.range df.cols.length).countP
        (fun i => decide (cellAt r i = .na)) : ℚ) / (df.cols.length : ℚ)) < t)) }

/-- `CleaningOperations.handle_missing_columns`: keep columns whose
missing ratio is < threshold.  With zero rows the ratio is `NaN`, the mask is
all-False, and every column is dropped. -/
def handle_missing_columns (df : DataFrame) (params : List (String × PVal)) :
    Except String DataFrame :=
  match thrNum (pyGet params "threshold" (.num (4/5))) with
  | .error e => .error e
  | .ok t =>
    if df.rows.isEmpty then .ok (df.selectIdxs [])
    else .ok (df.selectIdxs ((List.range df.cols.length).filter (fun i =>
      decide ((((df.colVals i).countP (fun v => decide (v = .na)) : ℚ)
        / (df.rows.length : ℚ)) < t))))

end CleaningOperations

namespace FeatureOperations

/-- One binary cell operation for the modelled `DataFrame.eval`:
numbers (and booleans) do arithmetic, NaN propagates through numeric
operands, string `+` concatenates; every other kind pairing raises as
pandas/numpy do. -/
def evalBinCell (op : String) (x y : Value) : Except String Value :=
  match cellNum? x, cellNum? y with
  | some a, some b =>
    if op = "+" then .ok (.num (a + b))
    else if op = "-" then .ok (.num (a - b))
    else .ok (.num (a * b))
  | _, _ =>
    match x, y with
    | .str a, .str b => if op = "+" then .ok (.str (a ++ b)) else .error "TypeError"
    | .na, .str _ => .error "TypeError"
    | .str _, .na => .error "TypeError"
    | .na, _ => .ok .na
    | _, .na => .ok .na
    | _, _ => .error "TypeError"

/-- Zip two columns through a binary cell operation, raising if any cell does. -/
def zipCellsE (op : String) : List Value → List Value → Except String (List Value)
  | [], _ => .ok []
  | _ :: _, [] => .ok []
  | x :: xs, y :: ys =>
    match evalBinCell op x y with
    | .error e => .error e
    | .ok v =>
      match zipCellsE op xs ys with
      | .error e => .error e
      | .ok l => .ok (v :: l)

/-- Minimal model of `pandas.DataFrame.eval`, restricted to the shapes the
repository's plans use: a single column name, or `colA <op> colB` with
`op ∈ {+, -, *}` separated by spaces.  Unknown names, other expressions and
non-string inputs raise — and `create_feature` catches any raise by design. -/
def evalExprDf (df : DataFrame) (e : PVal) : Except String (List Value) :=
  match e with
  | .str s =>
    match s.splitOn " " with
    | [a] =>
      match df.colIdx a with
      | some i => .ok (df.colVals i)
      | Option.none => .error ("UndefinedVariableError: name " ++ a ++ " is not defined")
    | [a, op, b] =>
      if op = "+" ∨ op = "-" ∨ op = "*" then
        match df.colIdx a, df.colIdx b with
        | some i, some j => zipCellsE op (df.colVals i) (df.colVals j)
        | _, _ => .error "UndefinedVariableError: name is not defined"
      else .error "SyntaxError: invalid syntax"
    | _ => .error "SyntaxError: invalid syntax"
  | _ => .error "TypeError: expr must be a string"

/-- `FeatureOperations.scale_numeric` (feature_ops.py).  Selected columns are
those that exist and have numeric dtype; when none qualify the frame is
returned unchanged.  sklearn scalers raise on NaN input and on an empty
frame.  `standard` cells become the symbolic `zscored` value (`(x-μ)/√(σ²)`
with population variance; sklearn substitutes scale 1 when the variance is
zero, giving the exact rational `x - μ = 0`); `minmax` and `robust` are exact
rationals (range/IQR of zero is replaced by scale 1 as sklearn does);
any other method name returns the frame unchanged. -/
def scale_numeric (df : DataFrame) (params : List (String × PVal)) :
    Except String DataFrame :=
  match CleaningOperations.iterElemsPy (pyGet params "columns" (.list [])) with
  | .error e => .error e
  | .ok elems =>
    let idxs := (elems.filterMap (fun v => match v with
      | .str s => df.colIdx s
      | _ => Option.none)).filter (fun i => colIsNumeric (df.colVals i))
    if idxs.isEmpty then .ok df
    else
      match pyGet params "method" (.str "standard") with
      | .str "standard" =>
        if df.rows.isEmpty then .error "ValueError: Found array with 0 sample(s)"
        else if idxs.any (fun i => (df.colVals i).contains .na) then
          .error "ValueError: Input contains NaN"
        else
          .ok (idxs.foldl (fun acc i =>
            let ns := colNums (acc.colVals i)
            let m := meanQ ns
            let v := meanQ (ns.map (fun x => (x - m) ^ 2))
            acc.setCol i ((acc.colVals i).map (fun c =>
              match cellNum? c with
              | some x => if v = 0 then .num (x - m) else .zscored x m v
              | Option.none => c))) df)
      | .str "minmax" =>
        if df.rows.isEmpty then .error "ValueError: Found array with 0 sample(s)"
        else if idxs.any (fun i => (df.colVals i).contains .na) then
          .error "ValueError: Input contains NaN"
        else
          .ok (idxs.foldl (fun acc i =>
            let ns := colNums (acc.colVals i)
            let mn := ns.foldr min (ns.headD 0)
            let mx := ns.foldr max (ns.headD 0)
            acc.setCol i ((acc.colVals i).map (fun c =>
              match cellNum? c with
              | some x => .num ((x - mn) / (if mx = mn then 1 else mx - mn))
              | Option.none => c))) df)
      | .str "robust" =>
        if df.rows.isEmpty then .error "ValueError: Found array with 0 sample(s)"
        else if idxs.any (fun i => (df.colVals i).contains .na) then
          .error "ValueError: Input contains NaN"
        else
          .ok (idxs.foldl (fun acc i =>
            let ns := colNums (acc.colVals i)
            let med := medianQ ns
            let iqr := quantileQ ns (3/4) - quantileQ ns (1/4)
            acc.setCol i ((acc.colVals i).map (fun c =>
              match cellNum? c with
              | some x => .num ((x - med) / (if iqr = 0 then 1 else iqr))
              | Option.none => c))) df)
      | _ => .ok df

/-- String rendering used by `astype(str)`, f-string column suffixes and
label encoding.  (Python renders floats in decimal; the rational literal
stands in for it — no claim inspects these strings.) -/
def strOfValue : Value → String
  | .str s => s
  | .num q => if q.den = 1 then toString q.num else toString q
  | .bool b => if b then "True" else "False"
  | .na => "nan"
  | .zscored .. => "<scaled>"
  | .dt y mo d h mi s =>
    toString y ++ "-" ++ toString mo ++ "-" ++ toString d ++ " " ++
      toString h ++ ":" ++ toString mi ++ ":" ++ toString s

/-- Is the non-NaN part of a column homogeneous enough for pandas to sort it
(all numeric/boolean, all strings, or all datetimes)? -/
def sortable (vals : List Value) : Bool :=
  let nonNa := vals.filter (fun v => decide (v ≠ .na))
  nonNa.all (fun v => (cellNum? v).isSome)
    || nonNa.all (fun v => match v with | .str _ => true | _ => false)
    || nonNa.all (fun v => match v with | .dt .. => true | _ => false)

/-- `FeatureOperations.encode_categorical`.  `label` fits a `LabelEncoder`
on the stringified column (classes sorted ascending); `onehot` is
`pd.get_dummies(..., drop_first=True)`: the encoded columns are removed and
boolean dummies named `col_category` are appended for every sorted distinct
non-NaN category except the first (NaN rows get all-False dummies);
`ordinal` maps each value to the index of its category in ascending order
(NaN maps to NaN); other methods return the frame unchanged.  Sorting a
mixed-kind column raises, as in pandas. -/
def encode_categorical (df : DataFrame) (params : List (String × PVal)) :
    Except String DataFrame :=
  match CleaningOperations.iterElemsPy (pyGet params "columns" (.list [])) with
  | .error e => .error e
  | .ok elems =>
    let names := elems.filterMap (fun v => match v with
      | .str s => if df.cols.contains s then some s else Option.none
      | _ => Option.none)
    if names.isEmpty then .ok df
    else
      match pyGet params "method" (.str "onehot") with
      | .str "label" =>
        .ok (names.foldl (fun acc c =>
          match acc.colIdx c with
          | Option.none => acc
          | some i =>
            let svals := (acc.colVals i).map strOfValue
            let classes := sortRowsBy (fun a b => Value.str a |> fun x => valueLe x (Value.str b))
              (CleaningOperations.dedupValues (svals.map Value.str) |>.filterMap
                (fun v => match v with | .str s => some s | _ => Option.none))
            acc.setCol i (svals.map (fun s =>
              .num ((classes.findIdx? (· == s)).getD 0)))) df)
      | .str "onehot" =>
        (names.foldlM (fun acc c =>
          match acc.colIdx c with
          | Option.none => .ok acc
          | some i =>
            let vals := acc.colVals i
            if !(sortable vals) then .error "TypeError: unorderable types"
            else
              let cats := sortRowsBy valueLe
                (CleaningOperations.dedupValues (vals.filter (fun v => decide (v ≠ .na))))
              let kept := (List.range acc.cols.length).filter (fun j => decide (j ≠ i))
              let base := acc.selectIdxs kept
              .ok ((cats.drop 1).foldl (fun b cat =>
                b.assignCol (c ++ "_" ++ strOfValue cat)
                  (vals.map (fun v => Value.bool (decide (v = cat))))) base)) df : Except String DataFrame)
      | .str "ordinal" =>
        (names.foldlM (fun acc c =>
          match acc.colIdx c with
          | Option.none => .ok acc
          | some i =>
            let vals := acc.colVals i
            if !(sortable vals) then .error "TypeError: unorderable types"
            else
              let cats := sortRowsBy valueLe
                (CleaningOperations.dedupValues (vals.filter (fun v => decide (v ≠ .na))))
              .ok (acc.setCol i (vals.map (fun v =>
                if v = .na then Value.na
                else .num ((cats.findIdx? (· == v)).getD 0))))) df : Except String DataFrame)
      | _ => .ok df

/-- `FeatureOperations.create_feature`.  The `arithmetic` branch wraps
`df[name] = df.eval(expression)` in `try/except: pass`, so any evaluation
failure leaves the frame unchanged.  `binning` is `pd.cut(col, bins,
labels=False)` guarded on an existing numeric column; `interaction`
multiplies two or more existing columns; other types fall through.
(A non-string `name` would create a non-string column label in pandas;
such labels are outside this model and the assignment is modelled as a
no-op — no claim exercises it.) -/
def create_feature (df : DataFrame) (params : List (String × PVal)) :
    Except String DataFrame :=
  let nameV := pyGet params "name" .none
  let assign := fun (d : DataFrame) (vals : List Value) =>
    match nameV with
    | .str name => d.assignCol name vals
    | _ => d
  match pyGet params "type" (.str "arithmetic") with
  | .str "arithmetic" =>
    match evalExprDf df (pyGet params "expression" .none) with
    | .error _ => .ok df
    | .ok vals => .ok (assign df vals)
  | .str "binning" =>
    match (match pyGet params "column" .none with
           | .str s => df.colIdx s
           | _ => Option.none) with
    | Option.none => .ok df
    | some i =>
      if colIsNumeric (df.colVals i) then
        match pyGet params "bins" (.num 5) with
        | .num q =>
          if q.den = 1 ∧ 0 < q.num then
            let b : Nat := q.num.toNat
            let ns := colNums (df.colVals i)
            let mn := ns.foldr min (ns.headD 0)
            let mx := ns.foldr max (ns.headD 0)
            .ok (assign df ((df.colVals i).map (fun c =>
              match cellNum? c with
              | some x =>
                .num (if mx = mn then 0
                  else min ((b : ℚ) - 1) (((x - mn) / ((mx - mn) / (b : ℚ))).floor))
              | Option.none => .na)))
          else .error "ValueError: bins must be a positive integer"
        | _ => .error "TypeError: bins"
      else .ok df
  | .str "interaction" =>
    match CleaningOperations.iterElemsPy (pyGet params "columns" (.list [])) with
    | .error e => .error e
    | .ok elems =>
      if 2 ≤ elems.length ∧ elems.all (fun v => match v with
          | .str s => df.cols.contains s
          | _ => false) then
        let idxs := elems.filterMap (fun v => match v with
          | .str s => df.colIdx s
          | _ => Option.none)
        match idxs with
        | [] => .ok df
        | i0 :: restIdx =>
          match restIdx.foldlM (fun acc j => zipCellsE "*" acc (df.colVals j))
              (df.colVals i0) with
          | .error e => .error e
          | .ok vals => .ok (assign df vals)
      else .ok df
  | _ => .ok df

end FeatureOperations

namespace FeatureOperations

/-- Days since 1970-01-01 of a civil date (Gregorian), for weekday math. -/
def daysFromCivil (y : Int) (m d : Nat) : Int :=
  let y' : Int := if m ≤ 2 then y - 1 else y
  let era : Int := (if 0 ≤ y' then y' else y' - 399) / 400
  let yoe : Int := y' - era * 400
  let mp : Int := if 2 < m then (m : Int) - 3 else (m : Int) + 9
  let doy : Int := (153 * mp + 2) / 5 + (d : Int) - 1
  let doe : Int := yoe * 365 + yoe / 4 - yoe / 100 + doy
  era * 146097 + doe - 719468

/-- Parse `"YYYY-MM-DD"` optionally followed by `" HH:MM:SS"` into a
datetime cell — the shapes of datetime strings this model's
`pd.to_datetime` accepts. -/
def parseDateStr (s : String) : Option Value :=
  let parts := s.splitOn " "
  let readDate := fun (ds : String) =>
    match (ds.splitOn "-").map String.toNat? with
    | [some y, some mo, some d] =>
      if 1 ≤ mo ∧ mo ≤ 12 ∧ 1 ≤ d ∧ d ≤ 31 then some ((y : Int), mo, d)
      else Option.none
    | _ => Option.none
  let readTime := fun (ts : String) =>
    match (ts.splitOn ":").map String.toNat? with
    | [some h, some mi, some sec] =>
      if h ≤ 23 ∧ mi ≤ 59 ∧ sec ≤ 59 then some (h, mi, sec) else Option.none
    | _ => Option.none
  match parts with
  | [ds] => (readDate ds).map (fun ymd => Value.dt ymd.1 ymd.2.1 ymd.2.2 0 0 0)
  | [ds, ts] =>
    match readDate ds, readTime ts with
    | some ymd, some hms => some (Value.dt ymd.1 ymd.2.1 ymd.2.2 hms.1 hms.2.1 hms.2.2)
    | _, _ => Option.none
  | _ => Option.none

/-- Model of `pd.to_datetime` on a cell: NaN stays NaT, datetimes pass
through, ISO-like strings parse; anything else fails the conversion
(`extract_datetime_features` catches the failure and returns the frame
unchanged — numeric epoch conversion is outside the model and treated as a
failure, which no claim exercises). -/
def toDatetimeCell : Value → Except String Value
  | .na => .ok .na
  | .dt y mo d h mi s => .ok (.dt y mo d h mi s)
  | .str s =>
    match parseDateStr s with
    | some v => .ok v
    | Option.none => .error "ParserError: unknown datetime string format"
  | _ => .error "ParserError: cannot convert"

/-- The requested datetime component of a converted cell (NaT gives NaN).
`dayofweek` is Monday=0 as in pandas. -/
def dtFeature (f : String) : Value → Value
  | .dt y mo d h _ _ =>
    if f = "year" then .num y
    else if f = "month" then .num mo
    else if f = "day" then .num d
    else if f = "dayofweek" then .num (((daysFromCivil y mo d) + 3).emod 7)
    else if f = "hour" then .num h
    else .num ((mo + 2) / 3)
  | _ => .na

/-- `FeatureOperations.extract_datetime_features`: no-op when the column is
absent; on conversion failure returns the frame unchanged; otherwise the
converted column replaces the original and one `column_feature` column is
appended per requested feature, in the source's fixed order
year, month, day, dayofweek, hour, quarter. -/
def extract_datetime_features (df : DataFrame) (params : List (String × PVal)) :
    Except String DataFrame :=
  match pyGet params "column" .none with
  | .str c =>
    match df.colIdx c with
    | Option.none => .ok df
    | some i =>
      match pyGet params "features" (.list [.str "year", .str "month", .str "day",
          .str "dayofweek"]) with
      | .list fl =>
        let has := fun (f : String) => fl.any (fun v => v == PVal.str f)
        match (df.colVals i).mapM toDatetimeCell with
        | .error _ => .ok df
        | .ok newVals =>
          let withF := fun (acc : DataFrame) (f : String) =>
            if has f then acc.assignCol (c ++ "_" ++ f) (newVals.map (dtFeature f)) else acc
          .ok (["year", "month", "day", "dayofweek", "hour", "quarter"].foldl withF
            (df.setCol i newVals))
      | _ => .error "TypeError: argument is not iterable"
  | _ => .ok df

/-- Python `str.split()` word count (split on whitespace runs). -/
def wordCount (s : String) : Nat :=
  ((s.split Char.isWhitespace).filter (fun w => decide (w ≠ ""))).length

/-- `FeatureOperations.create_text_features`: stringify the column in place
(`astype(str)`, NaN becomes `"nan"`), then append `_length`, `_word_count`
and `_char_count` columns. -/
def create_text_features (df : DataFrame) (params : List (String × PVal)) :
    Except String DataFrame :=
  match pyGet params "column" .none with
  | .str c =>
    match df.colIdx c with
    | Option.none => .ok df
    | some i =>
      let svals := (df.colVals i).map strOfValue
      let df1 := df.setCol i (svals.map Value.str)
      let df2 := df1.assignCol (c ++ "_length") (svals.map (fun s => Value.num s.length))
      let df3 := df2.assignCol (c ++ "_word_count") (svals.map (fun s => Value.num (wordCount s)))
      .ok (df3.assignCol (c ++ "_char_count")
        (svals.map (fun s => Value.num (s.replace " " "").length)))
  | _ => .ok df

/-- One group aggregate for `groupby(...).transform(agg_func)`.  `mean`,
`median` and `sum` require numeric values (pandas raises on object columns);
`min`/`max` also order strings; `count` counts non-NaN cells; an unknown
function name raises. -/
def aggOf (f : String) (vals : List Value) : Except String Value :=
  let nonNa := vals.filter (fun v => decide (v ≠ .na))
  let allNum := nonNa.all (fun v => (cellNum? v).isSome)
  let ns := colNums vals
  if f = "mean" ∨ f = "median" ∨ f = "sum" then
    if allNum then
      if f = "sum" then .ok (.num ns.sum)
      else if ns.isEmpty then .ok .na
      else .ok (.num (if f = "mean" then meanQ ns else medianQ ns))
    else .error "TypeError: could not convert"
  else if f = "min" ∨ f = "max" then
    if sortable vals then
      match sortRowsBy valueLe nonNa with
      | [] => .ok .na
      | x :: xs => .ok (if f = "min" then x else (x :: xs).getLastD x)
    else .error "TypeError: unorderable types"
  else if f = "count" then .ok (.num (nonNa.length))
  else .error ("AttributeError: " ++ f)

/-- `FeatureOperations.aggregate_features`: no-op unless both `group_by` and
`agg_column` exist; appends `aggcol_func_by_groupcol` holding, for each row,
the aggregate of `agg_column` over the rows sharing its `group_by` value
(rows whose group key is NaN get NaN — pandas drops NaN groups). -/
def aggregate_features (df : DataFrame) (params : List (String × PVal)) :
    Except String DataFrame :=
  let gV := pyGet params "group_by" .none
  let aV := pyGet params "agg_column" .none
  match (match gV with | .str s => df.colIdx s | _ => Option.none),
        (match aV with | .str s => df.colIdx s | _ => Option.none),
        gV, aV with
  | some gi, some ai, .str g, .str a =>
    match pyGet params "agg_func" (.str "mean") with
    | .str f =>
      match df.rows.mapM (fun r =>
          let k := cellAt r gi
          if k = .na then Except.ok Value.na
          else aggOf f (df.rows.filterMap (fun r' =>
            if cellAt r' gi = k then some (cellAt r' ai) else Option.none))) with
      | .error e => .error e
      | .ok vals => .ok (df.assignCol (a ++ "_" ++ f ++ "_by_" ++ g) vals)
    | _ => .error "TypeError: agg function"
  | _, _, _, _ => .ok df

/-- The `n` in `Series.head(n)` (negative `n` keeps all but the last `|n|`). -/
def headCount (len : Nat) (v : PVal) : Except String Nat :=
  match v with
  | .num q =>
    if q.den = 1 then
      if 0 ≤ q.num then .ok q.num.toNat else .ok (len - (-q.num).toNat)
    else .error "TypeError: cannot do head with float"
  | .bool b => .ok (if b then 1 else 0)
  | _ => .error "TypeError: cannot do head"

/-- `FeatureOperations.handle_high_cardinality`.  `top_n` keeps the
`threshold` most frequent non-NaN categories (`value_counts().head(n)`,
count-descending with first-appearance tie-break, a deterministic stand-in
for pandas' unspecified tie order) and maps every other cell — NaN
included — to `"Other"`.  `frequency_encode` appends `column_freq` with each
value's relative frequency among non-NaN cells (NaN maps to NaN).  Other
strategies return the frame unchanged. -/
def handle_high_cardinality (df : DataFrame) (params : List (String × PVal)) :
    Except String DataFrame :=
  match pyGet params "column" .none with
  | .str c =>
    match df.colIdx c with
    | Option.none => .ok df
    | some i =>
      let vals := df.colVals i
      let nonNa := vals.filter (fun v => decide (v ≠ .na))
      let cnt := fun v => nonNa.countP (fun w => decide (w = v))
      match pyGet params "strategy" (.str "top_n") with
      | .str "top_n" =>
        match headCount (CleaningOperations.dedupValues nonNa).length
            (pyGet params "threshold" (.num 10)) with
        | .error e => .error e
        | .ok n =>
          let topCats := (sortRowsBy (fun a b => decide (cnt b ≤ cnt a))
            (CleaningOperations.dedupValues nonNa)).take n
          .ok (df.setCol i (vals.map (fun v =>
            if v ∈ topCats then v else .str "Other")))
      | .str "frequency_encode" =>
        .ok (df.assignCol (c ++ "_freq") (vals.map (fun v =>
          if v = .na ∨ nonNa.isEmpty then Value.na
          else .num ((cnt v : ℚ) / (nonNa.length : ℚ)))))
      | _ => .ok df
  | _ => .ok df

end FeatureOperations

/-- The signature of every registered operation. -/
def OpFn := DataFrame → List (String × PVal) → Except String DataFrame

namespace PipelineExecutor

/-- `self.operations` of `PipelineExecutor.__init__` (executor.py): the full
15-entry name → function registry. -/
def operations : List (String × OpFn) :=
  [("drop_duplicates", CleaningOperations.drop_duplicates),
   ("drop_columns", CleaningOperations.drop_columns),
   ("fill_missing", CleaningOperations.fill_missing),
   ("remove_outliers", CleaningOperations.remove_outliers),
   ("filter_rows", CleaningOperations.filter_rows),
   ("sort_by", CleaningOperations.sort_by),
   ("handle_missing_rows", CleaningOperations.handle_missing_rows),
   ("handle_missing_columns", CleaningOperations.handle_missing_columns),
   ("scale_numeric", FeatureOperations.scale_numeric),
   ("encode_categorical", FeatureOperations.encode_categorical),
   ("create_feature", FeatureOperations.create_feature),
   ("extract_datetime_features", FeatureOperations.extract_datetime_features),
   ("create_text_features", FeatureOperations.create_text_features),
   ("aggregate_features", FeatureOperations.aggregate_features),
   ("handle_high_cardinality", FeatureOperations.handle_high_cardinality)]

/-- `op_name not in self.operations` / `self.operations[op_name]`:
a registry hit needs `op_name` to be a string key of the table
(`step.get("op")` may yield `None` or any non-string, which never matches). -/
def findOpFn (v : Option PVal) : Option OpFn :=
  match v with
  | some (.str s) => (operations.find? (fun kv => kv.1 == s)).map (·.2)
  | _ => Option.none

/-- Invoking a registered transform with the raw `params` value
(`step.get("params", {})`): a non-dict value makes the operation's own
`params.get` raise `AttributeError`, which the executor's `try` catches. -/
def runOp (f : OpFn) (d : DataFrame) (paramsV : PVal) : Except String DataFrame :=
  match paramsV with
  | .dict p => f d p
  | _ => .error "AttributeError: object has no attribute get"

/-- One execution-log dict.  Python builds these as dicts with
status-dependent keys, hence the `Option` fields: a `success` entry carries
`params`, both shapes and both deltas; a `failed` entry carries `error`; a
`skipped` entry carries `reason`. -/
structure LogEntry where
  step : Nat
  operation : Option PVal
  params : Option PVal
  status : String
  before_shape : Option (Nat × Nat)
  after_shape : Option (Nat × Nat)
  rows_changed : Option Int
  columns_changed : Option Int
  error : Option String
  reason : Option String

/-- The `skipped` log entry (unknown operation). -/
def skipEntry (i : Nat) (opV : Option PVal) : LogEntry :=
  { step := i + 1, operation := opV, params := Option.none, status := "skipped",
    before_shape := Option.none, after_shape := Option.none,
    rows_changed := Option.none, columns_changed := Option.none,
    error := Option.none,
    reason := some "Unknown operation" }

/-- The `success` log entry with before/after shapes and deltas
(`rows_changed = before_rows - after_rows`,
`columns_changed = after_cols - before_cols`). -/
def successEntry (i : Nat) (opV : Option PVal) (paramsV : PVal)
    (b a : Nat × Nat) : LogEntry :=
  { step := i + 1, operation := opV, params := some paramsV, status := "success",
    before_shape := some b, after_shape := some a,
    rows_changed := some ((b.1 : Int) - (a.1 : Int)),
    columns_changed := some ((a.2 : Int) - (b.2 : Int)),
    error := Option.none, reason := Option.none }

/-- The `failed` log entry carrying `str(e)`. -/
def failEntry (i : Nat) (opV : Option PVal) (e : String) : LogEntry :=
  { step := i + 1, operation := opV, params := Option.none, status := "failed",
    before_shape := Option.none, after_shape := Option.none,
    rows_changed := Option.none, columns_changed := Option.none,
    error := some e, reason := Option.none }

/-- The step loop of `PipelineExecutor.execute` (executor.py lines 57-97):
runs every step in order against the current frame, replacing it only on
success; a raising transform yields a `failed` entry and leaves the current
frame untouched; an unregistered name yields a `skipped` entry.  A non-dict
step raises `AttributeError` at `step.get("op")`, outside the `try`, which
aborts the whole call. -/
def execSteps (d : DataFrame) : List PVal → Nat →
    Except String (DataFrame × List LogEntry)
  | [], _ => .ok (d, [])
  | s :: rest, i =>
    match s with
    | .dict step =>
      let opV := dictGet step "op"
      let paramsV := (dictGet step "params").getD (.dict [])
      match findOpFn opV with
      | Option.none =>
        (execSteps d rest (i + 1)).map (fun dl => (dl.1, skipEntry i opV :: dl.2))
      | some f =>
        match runOp f d paramsV with
        | .ok d1 =>
          (execSteps d1 rest (i + 1)).map (fun dl =>
            (dl.1, successEntry i opV paramsV d.shape d1.shape :: dl.2))
        | .error e =>
          (execSteps d rest (i + 1)).map (fun dl => (dl.1, failEntry i opV e :: dl.2))
    | _ => .error "AttributeError: object has no attribute get"

/-- `PipelineExecutor._generate_summary`. -/
structure Summary where
  original_shape : Nat × Nat
  final_shape : Nat × Nat
  rows_removed : Int
  rows_removed_percent : ℚ
  columns_added : Int
  total_steps : Nat
  successful_steps : Nat
  failed_steps : Nat
  skipped_steps : Nat

/-- `PipelineExecutor._generate_summary` (executor.py lines 108-133),
a pure reduction of the log. -/
def generateSummary (original final : Nat × Nat) (log : List LogEntry) : Summary :=
  let rows_removed : Int := (original.1 : Int) - (final.1 : Int)
  { original_shape := original, final_shape := final,
    rows_removed := rows_removed,
    rows_removed_percent :=
      if 0 < original.1 then (rows_removed : ℚ) / (original.1 : ℚ) * 100 else 0,
    columns_added := (final.2 : Int) - (original.2 : Int),
    total_steps := log.length,
    successful_steps := log.countP (fun e => e.status == "success"),
    failed_steps := log.countP (fun e => e.status == "failed"),
    skipped_steps := log.countP (fun e => e.status == "skipped") }

/-- The result dict of `execute`. -/
structure ExecResult where
  processed_df : DataFrame
  execution_log : List LogEntry
  summary : Summary

/-- `plan.get("steps", [])` followed by the `for` iteration: lists iterate
their elements, strings their characters, dicts their keys; any other
non-missing value raises `TypeError`. -/
def stepsOf (plan : List (String × PVal)) : Except String (List PVal) :=
  CleaningOperations.iterElemsPy (pyGet plan "steps" (.list []))

/-- `PipelineExecutor.execute`: work on a private copy of the caller's
frame (`current_df = df.copy()`), run the step loop, and summarise. -/
def execute (df : DataFrame) (plan : List (String × PVal)) :
    Except String ExecResult :=
  match stepsOf plan with
  | .error e => .error e
  | .ok steps =>
    match execSteps df steps 0 with
    | .error e => .error e
    | .ok (d, log) =>
      .ok { processed_df := d, execution_log := log,
            summary := generateSummary df.shape d.shape log }

/-- `PipelineExecutor.execute_single_step`: unlike `execute`, raises on an
unknown operation and propagates transform errors. -/
def execute_single_step (df : DataFrame) (step : List (String × PVal)) :
    Except String DataFrame :=
  match findOpFn (dictGet step "op") with
  | Option.none => .error "ValueError: Unknown operation"
  | some f => runOp f df ((dictGet step "params").getD (.dict []))

/-- One dry-run impact dict (status-dependent keys, as for `LogEntry`). -/
structure ImpactEntry where
  step : Nat
  operation : Option PVal
  estimated_rows_affected : Option Int
  estimated_columns_affected : Option Int
  impact_percent : Option ℚ
  impact : Option String
  reason : Option String
  error : Option String

/-- The dry-run step loop (executor.py lines 168-201): same control flow as
`execSteps` but recording estimated deltas. -/
def drySteps (d : DataFrame) : List PVal → Nat →
    Except String (DataFrame × List ImpactEntry)
  | [], _ => .ok (d, [])
  | s :: rest, i =>
    match s with
    | .dict step =>
      let opV := dictGet step "op"
      let paramsV := (dictGet step "params").getD (.dict [])
      match findOpFn opV with
      | Option.none =>
        (drySteps d rest (i + 1)).map (fun dl => (dl.1,
          { step := i + 1, operation := opV,
            estimated_rows_affected := Option.none,
            estimated_columns_affected := Option.none,
            impact_percent := Option.none, impact := some "unknown",
            reason := some "Unknown operation", error := Option.none } :: dl.2))
      | some f =>
        match runOp f d paramsV with
        | .ok d1 =>
          (drySteps d1 rest (i + 1)).map (fun dl => (dl.1,
            { step := i + 1, operation := opV,
              estimated_rows_affected := some ((d.shape.1 : Int) - (d1.shape.1 : Int)),
              estimated_columns_affected := some ((d1.shape.2 : Int) - (d.shape.2 : Int)),
              impact_percent := some (if 0 < d.shape.1 then
                (((d.shape.1 : Int) - (d1.shape.1 : Int) : Int) : ℚ) / (d.shape.1 : ℚ) * 100
                else 0),
              impact := Option.none, reason := Option.none,
              error := Option.none } :: dl.2))
        | .error e =>
          (drySteps d rest (i + 1)).map (fun dl => (dl.1,
            { step := i + 1, operation := opV,
              estimated_rows_affected := Option.none,
              estimated_columns_affected := Option.none,
              impact_percent := Option.none, impact := some "error",
              reason := Option.none, error := some e } :: dl.2))
    | _ => .error "AttributeError: object has no attribute get"

/-- The bounded sample of `dry_run`: `min(1000, len(df))` rows.
`df.sample(n=1000, random_state=42)` (a seeded subsample without
replacement) is modelled as the first 1000 rows — every claim depends only
on the sample's row count. -/
def sampleDf (df : DataFrame) : DataFrame :=
  if 1000 < df.rows.length then { df with rows := df.rows.take 1000 } else df

/-- The result dict of `dry_run`. -/
structure DryRunResult where
  sample_size : Nat
  estimated_impact : List ImpactEntry
  estimated_final_shape : Nat × Nat

/-- `PipelineExecutor.dry_run`: run the step loop on a private copy of the
bounded sample, then extrapolate the final row count through
`int(full_rows * (sample_final_rows / sample_initial_rows))` — a Python
division that raises `ZeroDivisionError` when the sample has zero rows
(exact rational arithmetic followed by truncation models the float
expression). -/
def dry_run (df : DataFrame) (plan : List (String × PVal)) :
    Except String DryRunResult :=
  match stepsOf plan with
  | .error e => .error e
  | .ok steps =>
    let sdf := sampleDf df
    match drySteps sdf steps 0 with
    | .error e => .error e
    | .ok (cur, log) =>
      if sdf.rows.length = 0 then .error "ZeroDivisionError: division by zero"
      else
        .ok { sample_size := min 1000 df.rows.length,
              estimated_impact := log,
              estimated_final_shape :=
                ((df.rows.length * cur.rows.length) / sdf.rows.length,
                 cur.cols.length) }

end PipelineExecutor

/-- The profile consumed by `PipelineValidator.__init__`:
`available_columns = set(profile["basic_info"]["column_names"])` and
`column_types = {col: details["inferred_type"] for ...}`. -/
structure Profile where
  availableColumns : List String
  columnTypes : List (String × String)

namespace PipelineValidator

/-- The `column` parameter as seen by `_validate_step_order`
(`params.get("column")` with `params = step.get("params", {})`; a non-dict
`params` contributes nothing, matching Python's `.get` on the default). -/
def stepColParam (step : List (String × PVal)) : PVal :=
  match (dictGet step "params").getD (.dict []) with
  | .dict d => pyGet d "column" .none
  | _ => .none

/-- The `columns` parameter as seen by `_validate_step_order`. -/
def stepColsParam (step : List (String × PVal)) : PVal :=
  match (dictGet step "params").getD (.dict []) with
  | .dict d => pyGet d "columns" (.list [])
  | _ => .list []

/-- `PipelineValidator.VALID_OPERATIONS` (validator.py lines 9-19): the
validator accepts exactly these nine names — six of the executor's fifteen
registered operations are not in this set. -/
def VALID_OPERATIONS : List String :=
  ["drop_duplicates", "drop_columns", "fill_missing", "remove_outliers",
   "scale_numeric", "encode_categorical", "create_feature", "sort_by",
   "filter_rows"]

/-- `FILL_STRATEGIES`. -/
def FILL_STRATEGIES : List String :=
  ["mean", "median", "mode", "constant", "forward", "backward"]

/-- `OUTLIER_METHODS`. -/
def OUTLIER_METHODS : List String := ["iqr", "zscore", "isolation_forest"]

/-- `SCALING_METHODS`. -/
def SCALING_METHODS : List String := ["standard", "minmax", "robust"]

/-- `ENCODING_METHODS`. -/
def ENCODING_METHODS : List String := ["onehot", "label", "ordinal"]

/-- Python `str(v)` as it appears interpolated into the error f-strings. -/
def pvalStr : PVal → String
  | .str s => s
  | .num q => if q.den = 1 then toString q.num else toString q
  | .bool b => if b then "True" else "False"
  | .none => "None"
  | .list _ => "[...]"
  | .dict _ => "{...}"

/-- Membership of a plan value in a set of strings (non-strings never match). -/
def memberStr (v : PVal) (l : List String) : Bool :=
  match v with
  | .str s => l.contains s
  | _ => false

/-- `self.column_types.get(column)` — `Option.none` both for a column not in
the profile's type map and for a non-string column value. -/
def typeOf (p : Profile) (v : PVal) : Option String :=
  match v with
  | .str s => (p.columnTypes.find? (fun kv => kv.1 == s)).map (·.2)
  | _ => Option.none

/-- `PipelineValidator._validate_drop_columns`. -/
def validateDropColumns (p : Profile) (params : List (String × PVal)) (pfx : String) :
    List String :=
  match dictGet params "columns" with
  | Option.none => [pfx ++ ": drop_columns requires 'columns' parameter"]
  | some cv =>
    match cv with
    | .list cols =>
      cols.filterMap (fun c =>
        if memberStr c p.availableColumns then Option.none
        else some (pfx ++ ": Column '" ++ pvalStr c ++ "' does not exist"))
    | _ => [pfx ++ ": 'columns' must be a list"]

/-- `PipelineValidator._validate_fill_missing`. -/
def validateFillMissing (p : Profile) (params : List (String × PVal)) (pfx : String) :
    List String :=
  match dictGet params "column" with
  | Option.none => [pfx ++ ": fill_missing requires 'column' parameter"]
  | some cv =>
    if !(memberStr cv p.availableColumns) then
      [pfx ++ ": Column '" ++ pvalStr cv ++ "' does not exist"]
    else
      let strategy := pyGet params "strategy" (.str "mean")
      let e1 := if !(memberStr strategy FILL_STRATEGIES) then
          [pfx ++ ": Invalid fill strategy '" ++ pvalStr strategy ++ "'"]
        else []
      let e2 :=
        if (strategy == PVal.str "mean" || strategy == PVal.str "median")
            && !((typeOf p cv).any (fun t => t == "numeric" || t == "categorical_numeric")) then
          [pfx ++ ": Cannot use " ++ pvalStr strategy ++ " strategy on non-numeric column '"
            ++ pvalStr cv ++ "'"]
        else []
      e1 ++ e2

/-- `PipelineValidator._validate_remove_outliers`. -/
def validateRemoveOutliers (p : Profile) (params : List (String × PVal)) (pfx : String) :
    List String :=
  match dictGet params "column" with
  | Option.none => [pfx ++ ": remove_outliers requires 'column' parameter"]
  | some cv =>
    if !(memberStr cv p.availableColumns) then
      [pfx ++ ": Column '" ++ pvalStr cv ++ "' does not exist"]
    else
      let e1 := if !((typeOf p cv).any (fun t => t == "numeric" || t == "categorical_numeric")) then
          [pfx ++ ": Cannot remove outliers from non-numeric column '" ++ pvalStr cv ++ "'"]
        else []
      let m := pyGet params "method" (.str "iqr")
      let e2 := if !(memberStr m OUTLIER_METHODS) then
          [pfx ++ ": Invalid outlier method '" ++ pvalStr m ++ "'"]
        else []
      e1 ++ e2

/-- `PipelineValidator._validate_scale_numeric`. -/
def validateScaleNumeric (p : Profile) (params : List (String × PVal)) (pfx : String) :
    List String :=
  match dictGet params "columns" with
  | Option.none => [pfx ++ ": scale_numeric requires 'columns' parameter"]
  | some cv =>
    match cv with
    | .list cols =>
      let colErrs := cols.flatMap (fun c =>
        if !(memberStr c p.availableColumns) then
          [pfx ++ ": Column '" ++ pvalStr c ++ "' does not exist"]
        else if !((typeOf p c).any (fun t => t == "numeric" || t == "categorical_numeric")) then
          [pfx ++ ": Cannot scale non-numeric column '" ++ pvalStr c ++ "'"]
        else [])
      let m := pyGet params "method" (.str "standard")
      colErrs ++ (if !(memberStr m SCALING_METHODS) then
        [pfx ++ ": Invalid scaling method '" ++ pvalStr m ++ "'"] else [])
    | _ => [pfx ++ ": 'columns' must be a list"]

/-- `PipelineValidator._validate_encode_categorical`. -/
def validateEncodeCategorical (p : Profile) (params : List (String × PVal)) (pfx : String) :
    List String :=
  match dictGet params "columns" with
  | Option.none => [pfx ++ ": encode_categorical requires 'columns' parameter"]
  | some cv =>
    match cv with
    | .list cols =>
      let colErrs := cols.filterMap (fun c =>
        if memberStr c p.availableColumns then Option.none
        else some (pfx ++ ": Column '" ++ pvalStr c ++ "' does not exist"))
      let m := pyGet params "method" (.str "onehot")
      colErrs ++ (if !(memberStr m ENCODING_METHODS) then
        [pfx ++ ": Invalid encoding method '" ++ pvalStr m ++ "'"] else [])
    | _ => [pfx ++ ": 'columns' must be a list"]

/-- `PipelineValidator._validate_sort_by`. -/
def validateSortBy (p : Profile) (params : List (String × PVal)) (pfx : String) :
    List String :=
  match dictGet params "column" with
  | Option.none => [pfx ++ ": sort_by requires 'column' parameter"]
  | some cv =>
    if !(memberStr cv p.availableColumns) then
      [pfx ++ ": Column '" ++ pvalStr cv ++ "' does not exist"]
    else []

/-- `PipelineValidator._validate_step` (validator.py lines 63-101).
A non-dict step would hit Python's `in`/subscript semantics; every claim
only exercises dict steps, and anything else is modelled as a raise. -/
def validateStep (p : Profile) (s : PVal) (index : Nat) : Except String (List String) :=
  match s with
  | .dict step =>
    let pfx := "Step " ++ toString (index + 1)
    match dictGet step "op" with
    | Option.none => .ok [pfx ++ ": Missing 'op' field"]
    | some op =>
      if !(memberStr op VALID_OPERATIONS) then
        .ok [pfx ++ ": Unknown operation '" ++ pvalStr op ++ "'"]
      else
        match (dictGet step "params").getD (.dict []) with
        | .dict params =>
          if op == PVal.str "drop_columns" then .ok (validateDropColumns p params pfx)
          else if op == PVal.str "fill_missing" then .ok (validateFillMissing p params pfx)
          else if op == PVal.str "remove_outliers" then .ok (validateRemoveOutliers p params pfx)
          else if op == PVal.str "scale_numeric" then .ok (validateScaleNumeric p params pfx)
          else if op == PVal.str "encode_categorical" then .ok (validateEncodeCategorical p params pfx)
          else if op == PVal.str "sort_by" then .ok (validateSortBy p params pfx)
          else .ok []
        | _ => .error "TypeError: argument of wrong type"
  | _ => .error "TypeError: argument of wrong type"

/-- `PipelineValidator._validate_step_order` (validator.py lines 235-262),
as a fold carrying the dropped-column set.  The first thing done to each
step is `op = step["op"]` — an unguarded subscript that raises `KeyError`
when the step has no `op` key (unlike `_validate_step`, which reports it as
an accumulated error). -/
def stepOrderAux (steps : List PVal) (i : Nat) (dropped : List PVal) :
    Except String (List String) :=
  match steps with
  | [] => .ok []
  | s :: rest =>
    match s with
    | .dict step =>
      match dictGet step "op" with
      | Option.none => .error "KeyError: 'op'"
      | some op =>
        match op with
        | .str opName =>
          if opName = "drop_columns" then
            match CleaningOperations.iterElemsPy (stepColsParam step) with
            | .error e => .error e
            | .ok cols => stepOrderAux rest (i + 1) (dropped ++ cols)
          else if opName = "fill_missing" ∨ opName = "remove_outliers" ∨ opName = "sort_by" then
            let col := stepColParam step
            let here := if dropped.any (fun d => PVal.beq col d) then
                ["Step " ++ toString (i + 1) ++ ": References dropped column '"
                  ++ pvalStr col ++ "'"]
              else []
            (stepOrderAux rest (i + 1) dropped).map (fun es => here ++ es)
          else if opName = "scale_numeric" ∨ opName = "encode_categorical" then
            match CleaningOperations.iterElemsPy (stepColsParam step) with
            | .error e => .error e
            | .ok cols =>
              let here := cols.filterMap (fun c =>
                if dropped.any (fun d => PVal.beq c d) then
                  some ("Step " ++ toString (i + 1) ++ ": References dropped column '"
                    ++ pvalStr c ++ "'")
                else Option.none)
              (stepOrderAux rest (i + 1) dropped).map (fun es => here ++ es)
          else stepOrderAux rest (i + 1) dropped
        | _ => stepOrderAux rest (i + 1) dropped
    | _ => .error "TypeError: not subscriptable"

/-- Accumulate `_validate_step` errors over all steps. -/
def stepErrorsAux (p : Profile) (steps : List PVal) (i : Nat) :
    Except String (List String) :=
  match steps with
  | [] => .ok []
  | s :: rest =>
    match validateStep p s i with
    | .error e => .error e
    | .ok es =>
      match stepErrorsAux p rest (i + 1) with
      | .error e => .error e
      | .ok es' => .ok (es ++ es')

/-- `PipelineValidator.validate` (validator.py lines 34-61): structural
checks, per-step checks, then the cross-step referential check; valid iff
zero errors accumulated.  The `Except` layer carries the exceptions the
method can leak (notably the `KeyError` of `_validate_step_order`). -/
def validate (p : Profile) (plan : List (String × PVal)) :
    Except String (Bool × List String) :=
  match dictGet plan "steps" with
  | Option.none => .ok (false, ["Plan must contain 'steps' field"])
  | some stepsV =>
    match stepsV with
    | .list steps =>
      match stepErrorsAux p steps 0 with
      | .error e => .error e
      | .ok es1 =>
        match stepOrderAux steps 0 [] with
        | .error e => .error e
        | .ok es2 =>
          let errors := es1 ++ es2
          .ok (errors.isEmpty, errors)
    | _ => .ok (false, ["'steps' must be a list"])

end PipelineValidator

/-!  Object-heap model for the aliasing/non-mutation claims.

A `Heap` is a store of DataFrame objects addressed by handle, modelling the
Python object graph a caller shares with the executor.  `execute` starts
with `current_df = df.copy()` and `dry_run` with
`df.sample(...)`/`df.copy()` followed by `sample_df.copy()`; every transform
either returns a fresh pandas object or begins with `df = df.copy()` before
writing (see cleaning_ops.py and feature_ops.py — every mutating operation
copies first), so a run only ever *allocates*: it appends fresh cells and
never writes an existing one.  Intermediate per-step allocations are elided
(no caller can reach them); the appended cells are the working copy and the
final frame. -/
abbrev Heap := List DataFrame

namespace PipelineExecutor

/-- `execute` lifted to the object heap: read the caller's frame at handle
`r`, allocate the private working copy, run, allocate the result. -/
def executeH (h : Heap) (r : Nat) (plan : List (String × PVal)) :
    Heap × Except String ExecResult :=
  match h.get? r with
  | Option.none => (h, .error "KeyError: unknown dataframe handle")
  | some df =>
    match execute df plan with
    | .error e => (h ++ [df], .error e)
    | .ok res => (h ++ [df, res.processed_df], .ok res)

/-- `dry_run` lifted to the object heap: allocate the sample and its working
copy and never touch the caller's cell. -/
def dryRunH (h : Heap) (r : Nat) (plan : List (String × PVal)) :
    Heap × Except String DryRunResult :=
  match h.get? r with
  | Option.none => (h, .error "KeyError: unknown dataframe handle")
  | some df =>
    match dry_run df plan with
    | .error e => (h ++ [sampleDf df, sampleDf df], .error e)
    | .ok res => (h ++ [sampleDf df, sampleDf df], .ok res)

/-- The shape recorded by the last `success` entry of an execution log, or
`orig` when no entry succeeded (the property claimed for
`summary.final_shape`). -/
def lastSuccessAfterShape (orig : Nat × Nat) (log : List LogEntry) : Nat × Nat :=
  match (log.filter (fun e => e.status == "success")).getLast? with
  | some e => e.after_shape.getD orig
  | Option.none => orig

/-- The same quantity as a left fold, used as the induction vehicle. -/
def lastSuccessFold (orig : Nat × Nat) (log : List LogEntry) : Nat × Nat :=
  log.foldl (fun acc e => if e.status == "success" then e.after_shape.getD acc else acc) orig

/-- The dataset version produced by the last successful step of a step list:
apply each registered transform that succeeds, skip everything else.  This is
the reference semantics for the rollback claim. -/
def applySuccesses (d : DataFrame) : List PVal → DataFrame
  | [] => d
  | s :: rest =>
    match s with
    | .dict step =>
      match findOpFn (dictGet step "op") with
      | Option.none => applySuccesses d rest
      | some f =>
        match runOp f d ((dictGet step "params").getD (.dict [])) with
        | .ok d1 => applySuccesses d1 rest
        | .error _ => applySuccesses d rest
    | _ => d

end PipelineExecutor

/-- A rectangular frame (every row as long as the header) — the pandas
invariant the model does not bake into the type. -/
def DataFrame.Rect (df : DataFrame) : Prop :=
  ∀ r ∈ df.rows, r.length = df.cols.length

/-- The column names the model's `DataFrame.eval` resolves in an expression
parameter (used to state "the expression references only absent columns"). -/
def exprRefsP : PVal → List String
  | .str e =>
    match e.splitOn " " with
    | [a] => [a]
    | [a, op, b] => if op = "+" ∨ op = "-" ∨ op = "*" then [a, b] else []
    | _ => []
  | _ => []

namespace PipelineValidator

/-- The contract checks of one step, stated semantically: the step is a
mapping whose `op` names one of the validator's nine operations, its
`params` is a mapping, required parameters are present and well-typed,
referenced columns exist in the profile, enum parameters take legal values,
and the column-kind requirements hold. -/
def stepChecksOK (p : Profile) (s : PVal) : Bool :=
  match s with
  | .dict step =>
    match dictGet step "op", (dictGet step "params").getD (.dict []) with
    | some (.str op), .dict params =>
      VALID_OPERATIONS.contains op &&
      (if op = "drop_columns" then
        match dictGet params "columns" with
        | some (.list cols) => cols.all (fun c => memberStr c p.availableColumns)
        | _ => false
      else if op = "fill_missing" then
        match dictGet params "column" with
        | some cv =>
          memberStr cv p.availableColumns &&
          memberStr (pyGet params "strategy" (.str "mean")) FILL_STRATEGIES &&
          (!(pyGet params "strategy" (.str "mean") == PVal.str "mean"
              || pyGet params "strategy" (.str "mean") == PVal.str "median")
            || (typeOf p cv).any (fun t => t == "numeric" || t == "categorical_numeric"))
        | Option.none => false
      else if op = "remove_outliers" then
        match dictGet params "column" with
        | some cv =>
          memberStr cv p.availableColumns &&
          ((typeOf p cv).any (fun t => t == "numeric" || t == "categorical_numeric")) &&
          memberStr (pyGet params "method" (.str "iqr")) OUTLIER_METHODS
        | Option.none => false
      else if op = "scale_numeric" then
        match dictGet params "columns" with
        | some (.list cols) =>
          cols.all (fun c => memberStr c p.availableColumns &&
            ((typeOf p c).any (fun t => t == "numeric" || t == "categorical_numeric"))) &&
          memberStr (pyGet params "method" (.str "standard")) SCALING_METHODS
        | _ => false
      else if op = "encode_categorical" then
        match dictGet params "columns" with
        | some (.list cols) =>
          cols.all (fun c => memberStr c p.availableColumns) &&
          memberStr (pyGet params "method" (.str "onehot")) ENCODING_METHODS
        | _ => false
      else if op = "sort_by" then
        match dictGet params "column" with
        | some cv => memberStr cv p.availableColumns
        | Option.none => false
      else true)
    | _, _ => false
  | _ => false

/-- The referential check, stated as the forward simulation of the spec:
walking the steps in order while collecting `drop_columns` targets, no
column-referencing step names a previously dropped column. -/
def noDroppedRefsAux (dropped : List PVal) : List PVal → Bool
  | [] => true
  | s :: rest =>
    match s with
    | .dict step =>
      match dictGet step "op" with
      | some (.str op) =>
        if op = "drop_columns" then
          match stepColsParam step with
          | .list cols => noDroppedRefsAux (dropped ++ cols) rest
          | _ => false
        else if op = "fill_missing" ∨ op = "remove_outliers" ∨ op = "sort_by" then
          !(dropped.any (fun d => PVal.beq (stepColParam step) d)) &&
            noDroppedRefsAux dropped rest
        else if op = "scale_numeric" ∨ op = "encode_categorical" then
          match stepColsParam step with
          | .list cols =>
            cols.all (fun c => !(dropped.any (fun d => PVal.beq c d))) &&
              noDroppedRefsAux dropped rest
          | _ => false
        else noDroppedRefsAux dropped rest
      | _ => false
    | _ => false

/-- No step of the plan references a column dropped by an earlier step. -/
def noDroppedRefs (steps : List PVal) : Bool := noDroppedRefsAux [] steps

end PipelineValidator

/-- A small concrete profile used by concrete evaluations:
columns `age` (numeric), `name` (text), `score` (numeric). -/
def toyProfile : Profile :=
  { availableColumns := ["age", "name", "score"],
    columnTypes := [("age", "numeric"), ("name", "text"), ("score", "numeric")] }

/-- A small concrete dataset used by concrete evaluations. -/
def toyDf : DataFrame :=
  { cols := ["age", "name"],
    rows := [[.num 30, .str "alice"], [.num 25, .str "bob"]] }

/-- A concrete dataset with duplicate rows. -/
def dupDf : DataFrame :=
  { cols := ["x"], rows := [[.num 1], [.num 1], [.num 2]] }

/-- The plan `{"steps": []}`. -/
def planEmptySteps : List (String × PVal) := [("steps", .list [])]

/-- The result of `execute toyDf planEmptySteps`: the empty log and a
summary of shape (2,2) → (2,2) with zero counts. -/
def toyExecEmpty : PipelineExecutor.ExecResult :=
  match PipelineExecutor.execute toyDf planEmptySteps with
  | .ok r => r
  | .error _ =>
    { processed_df := toyDf, execution_log := [],
      summary := PipelineExecutor.generateSummary (2, 2) (2, 2) [] }

/-- A plan whose single step names an unregistered operation. -/
def planBogusStep : List (String × PVal) :=
  [("steps", .list [.dict [("op", .str "bogus")]])]

/-- The result of `execute toyDf planBogusStep`: a single `skipped` entry. -/
def toyExecBogus : PipelineExecutor.ExecResult :=
  match PipelineExecutor.execute toyDf planBogusStep with
  | .ok r => r
  | .error _ =>
    { processed_df := toyDf, execution_log := [],
      summary := PipelineExecutor.generateSummary (2, 2) (2, 2) [] }

/-- A step invoking `drop_duplicates` with an absent `subset` column — a
registered transform that raises. -/
def ghostDupStep : List (String × PVal) :=
  [("op", .str "drop_duplicates"), ("params", .dict [("subset", .list [.str "ghost"])])]

/-- A harmless follow-up step. -/
def sortAgeStep : PVal :=
  .dict [("op", .str "sort_by"), ("params", .dict [("column", .str "age")])]

/-- A plan whose first step raises and whose second is runnable. -/
def failPlan : List (String × PVal) :=
  [("steps", .list [.dict ghostDupStep, sortAgeStep])]

/-- `dupDf` after duplicate removal. -/
def dedupedDf : DataFrame := { cols := ["x"], rows := [[.num 1], [.num 2]] }

/-- A step dropping only the absent column `"ghost"`. -/
def ghostColsStep : List (String × PVal) :=
  [("op", .str "drop_columns"), ("params", .dict [("columns", .list [.str "ghost"])])]

namespace PipelineValidator

/-- A step `_validate_step` can process without raising: a mapping whose
`params`, when present, is itself a mapping. -/
def wfContractStep (s : PVal) : Bool :=
  match s with
  | .dict step =>
    match dictGet step "params" with
    | some (.dict _) => true
    | some _ => false
    | Option.none => true
  | _ => false

/-- A step `_validate_step_order` can process without raising: a mapping
with an `op` key whose `columns` parameter is iterable when the operation
iterates it. -/
def wfOrderStep (s : PVal) : Bool :=
  match s with
  | .dict step =>
    match dictGet step "op" with
    | some op =>
      (match op with
       | .str opName =>
         if opName = "drop_columns" ∨ opName = "scale_numeric"
             ∨ opName = "encode_categorical" then
           match stepColsParam step with
           | .list _ => true
           | .str _ => true
           | .dict _ => true
           | _ => false
         else true
       | _ => true)
    | Option.none => false
  | _ => false

end PipelineValidator


/-- A concrete `drop_columns(["age"])` step as a mapping. -/
def dropAgeStepD : List (String × PVal) :=
  [("op", PVal.str "drop_columns"),
   ("params", PVal.dict [("columns", PVal.list [PVal.str "age"])])]

/-- A concrete `fill_missing(column="age")` step as a mapping. -/
def fillAgeStepD : List (String × PVal) :=
  [("op", PVal.str "fill_missing"),
   ("params", PVal.dict [("column", PVal.str "age")])]

/-- The two-step plan of the claim: drop "age", then fill "age". -/
def dropRefPlan : List (String × PVal) :=
  [("steps", PVal.list [PVal.dict dropAgeStepD, PVal.dict fillAgeStepD])]


/-- A five-step plan drawn from the validator's own operation set:
dedup, fill "age" by mean, remove outliers on "score", drop "name",
then sort by "age". -/
def soundPlanSteps : List PVal :=
  [PVal.dict [("op", PVal.str "drop_duplicates")],
   PVal.dict [("op", PVal.str "fill_missing"),
     ("params", PVal.dict [("column", PVal.str "age"),
       ("strategy", PVal.str "mean")])],
   PVal.dict [("op", PVal.str "remove_outliers"),
     ("params", PVal.dict [("column", PVal.str "score"),
       ("method", PVal.str "iqr")])],
   PVal.dict [("op", PVal.str "drop_columns"),
     ("params", PVal.dict [("columns", PVal.list [PVal.str "name"])])],
   PVal.dict [("op", PVal.str "sort_by"),
     ("params", PVal.dict [("column", PVal.str "age")])]]

/-- The plan wrapping `soundPlanSteps`. -/
def soundPlan : List (String × PVal) := [("steps", PVal.list soundPlanSteps)]

/-!  Theorems. -/

section Theorems

open PipelineExecutor PipelineValidator CleaningOperations FeatureOperations

/-- A name not in a list is found at no index. -/
theorem findIdx_none_of_not_mem (c : String) (l : List String) (h : c ∉ l) :
    l.findIdx? (· == c) = Option.none := by
  induction l with
  | nil => rfl
  | cons x xs ih =>
    rw [List.findIdx?_cons]
    have hx : (x == c) = false := by
      simp only [beq_eq_false_iff_ne]
      intro hxc
      exact h (hxc ▸ List.mem_cons_self x xs)
    simp only [hx, cond_false]
    have : c ∉ xs := fun hm => h (List.mem_cons_of_mem x hm)
    simpa [List.findIdx?_succ] using ih this

/-- Reading every position of a list back in order rebuilds the list. -/
theorem map_range_getD {α : Type} (l : List α) (d : α) :
    (List.range l.length).map (fun i => l.getD i d) = l := by
  apply List.ext_getElem
  · simp
  · intro i h1 h2
    simp [List.getD_eq_getElem?_getD, List.getElem?_eq_getElem h2]

/-- `C2` counterexample: a plan whose single step uses
`handle_missing_rows` — one of the fifteen names the spec's enum lists, with
parameters that violate no contract — is rejected by `validate` as an
unknown operation: the validator's real enum has only nine names. -/
theorem validator_rejects_handle_missing_rows :
    validate toyProfile
      [("steps", .list [.dict [("op", .str "handle_missing_rows"), ("params", .dict [])]])]
      = .ok (false, ["Step 1: Unknown operation 'handle_missing_rows'"]) := rfl

/-- `C3`: evaluating `validate` at a plan whose steps are mappings, one of
which lacks the `op` field.  `_validate_step` dutifully accumulates
"Step 1: Missing 'op' field", but `_validate_step_order` then evaluates
`step["op"]` unguarded and the whole call raises `KeyError` instead of
returning `(False, errors)`. -/
theorem validate_raises_on_missing_op :
    validate toyProfile [("steps", .list [.dict []])] = .error "KeyError: 'op'" := rfl

/-- `C4` counterexample: in a plan that drops `"age"` at step 1 and
fills `"age"` at step 2, adding one further step that lacks an `op` field
makes `validate` raise (`step["op"]` in `_validate_step_order`) rather than
return `is_valid=false` citing step 2 and `"age"` — so the claim fails as
stated for this plan. -/
theorem validate_drop_ref_plan_can_raise :
    validate toyProfile
      [("steps", .list
        [.dict [("op", .str "drop_columns"), ("params", .dict [("columns", .list [.str "age"])])],
         .dict [("op", .str "fill_missing"), ("params", .dict [("column", .str "age")])],
         .dict []])]
      = .error "KeyError: 'op'" := rfl

/-- `C7` counterexample: `drop_duplicates` with a `subset` naming only the
absent column `"ghost"` raises (pandas `KeyError`) instead of returning the
dataset unchanged — the one registered operation without a missing-column
guard. -/
theorem drop_duplicates_raises_on_ghost_subset :
    drop_duplicates toyDf [("subset", .list [.str "ghost"])]
      = .error "KeyError: subset columns not found in the DataFrame" := rfl

/-- `C8` counterexample: executing a two-step plan (an unknown operation,
then a raising transform) produces one `skipped` and one `failed` log
entry, and neither carries `before_shape`, `after_shape`, `rows_changed` or
`columns_changed` — those fields are present only on `success` entries. -/
theorem log_entries_without_shape_fields :
    (execute toyDf [("steps", .list
      [.dict [("op", .str "bogus")],
       .dict [("op", .str "drop_duplicates"),
              ("params", .dict [("subset", .list [.str "ghost"])])]])]).map
      (fun r => r.execution_log.map (fun e =>
        (e.status, e.before_shape, e.after_shape, e.rows_changed, e.columns_changed)))
    = .ok [("skipped", Option.none, Option.none, Option.none, Option.none),
           ("failed", Option.none, Option.none, Option.none, Option.none)] := rfl

end Theorems


section ExecutorLemmas

open PipelineExecutor

/-- Splitting the executor's step loop after a prefix that ran to completion:
the suffix runs from the prefix's resulting frame and step counter, and the
logs concatenate. -/
theorem execSteps_append_ok (pre : List PVal) (rest : List PVal) (d : DataFrame)
    (i : Nat) (d1 : DataFrame) (lg : List LogEntry)
    (h : execSteps d pre i = .ok (d1, lg)) :
    execSteps d (pre ++ rest) i =
      (execSteps d1 rest (i + pre.length)).map (fun dl2 => (dl2.1, lg ++ dl2.2)) := by
  induction pre generalizing d i lg with
  | nil =>
    simp only [execSteps, Except.ok.injEq, Prod.mk.injEq] at h
    obtain ⟨h1, h2⟩ := h
    subst h1; subst h2
    simp only [List.nil_append, List.length_nil, Nat.add_zero]
    cases h2 : execSteps d rest i <;> simp [Except.map]
  | cons s pre ih =>
    cases s with
    | dict step =>
      rw [List.cons_append]
      simp only [execSteps] at h ⊢
      cases hf : findOpFn (dictGet step "op") with
      | none =>
        simp only [hf] at h
        dsimp only
        cases h1 : execSteps d pre (i + 1) with
        | error e => rw [h1] at h; simp [Except.map] at h
        | ok dl =>
          obtain ⟨dA, lgA⟩ := dl
          rw [h1] at h
          simp only [Except.map, Except.ok.injEq, Prod.mk.injEq] at h
          obtain ⟨hd1, hlg⟩ := h
          subst hd1
          subst hlg
          rw [ih d (i + 1) lgA h1]
          simp only [List.length_cons]
          rw [show i + 1 + pre.length = i + (pre.length + 1) from by omega]
          cases h2 : execSteps dA rest (i + (pre.length + 1)) <;> simp [Except.map]
      | some f =>
        simp only [hf] at h
        dsimp only
        cases hr : runOp f d ((dictGet step "params").getD (.dict [])) with
        | ok dnew =>
          rw [hr] at h
          dsimp only at h
          dsimp only
          cases h1 : execSteps dnew pre (i + 1) with
          | error e => rw [h1] at h; simp [Except.map] at h
          | ok dl =>
            obtain ⟨dA, lgA⟩ := dl
            rw [h1] at h
            simp only [Except.map, Except.ok.injEq, Prod.mk.injEq] at h
            obtain ⟨hd1, hlg⟩ := h
            subst hd1
            subst hlg
            rw [ih dnew (i + 1) lgA h1]
            simp only [List.length_cons]
            rw [show i + 1 + pre.length = i + (pre.length + 1) from by omega]
            cases h2 : execSteps dA rest (i + (pre.length + 1)) <;> simp [Except.map]
        | error e =>
          rw [hr] at h
          dsimp only at h
          dsimp only
          cases h1 : execSteps d pre (i + 1) with
          | error e' => rw [h1] at h; simp [Except.map] at h
          | ok dl =>
            obtain ⟨dA, lgA⟩ := dl
            rw [h1] at h
            simp only [Except.map, Except.ok.injEq, Prod.mk.injEq] at h
            obtain ⟨hd1, hlg⟩ := h
            subst hd1
            subst hlg
            rw [ih d (i + 1) lgA h1]
            simp only [List.length_cons]
            rw [show i + 1 + pre.length = i + (pre.length + 1) from by omega]
            cases h2 : execSteps dA rest (i + (pre.length + 1)) <;> simp [Except.map]
    | str s => simp [execSteps] at h
    | num q => simp [execSteps] at h
    | bool b => simp [execSteps] at h
    | none => simp [execSteps] at h
    | list l => simp [execSteps] at h

/-- The step loop never raises on a plan whose steps are all mappings: every
transform failure is caught, so it runs to completion with one log entry per
step. -/
theorem execSteps_total (steps : List PVal)
    (hwf : ∀ s ∈ steps, ∃ dd, s = PVal.dict dd) (d : DataFrame) (i : Nat) :
    ∃ d' log, execSteps d steps i = .ok (d', log) ∧ log.length = steps.length := by
  induction steps generalizing d i with
  | nil => exact ⟨d, [], rfl, rfl⟩
  | cons s rest ih =>
    obtain ⟨dd, rfl⟩ := hwf s (List.mem_cons_self s rest)
    have hwf' : ∀ s ∈ rest, ∃ dd, s = PVal.dict dd :=
      fun s hs => hwf s (List.mem_cons_of_mem _ hs)
    simp only [execSteps]
    cases hf : findOpFn (dictGet dd "op") with
    | none =>
      obtain ⟨d', log, h1, hlen⟩ := ih hwf' d (i + 1)
      refine ⟨d', skipEntry i (dictGet dd "op") :: log, ?_, by simp [hlen]⟩
      dsimp only
      rw [h1]
      simp [Except.map]
    | some f =>
      dsimp only
      cases hr : runOp f d ((dictGet dd "params").getD (.dict [])) with
      | ok d1 =>
        obtain ⟨d', log, h1, hlen⟩ := ih hwf' d1 (i + 1)
        refine ⟨d', successEntry i (dictGet dd "op") ((dictGet dd "params").getD (.dict []))
          d.shape d1.shape :: log, ?_, by simp [hlen]⟩
        dsimp only
        rw [h1]
        simp [Except.map]
      | error e =>
        obtain ⟨d', log, h1, hlen⟩ := ih hwf' d (i + 1)
        refine ⟨d', failEntry i (dictGet dd "op") e :: log, ?_, by simp [hlen]⟩
        dsimp only
        rw [h1]
        simp [Except.map]

/-- Everything a completed step loop guarantees: one entry per step, the
final frame is the fold of the successful transforms only, its shape is the
fold of the `success` entries' `after_shape`s, and each entry carries the
fields its status requires. -/
theorem execSteps_spec (steps : List PVal) (d : DataFrame) (i : Nat)
    (d' : DataFrame) (log : List LogEntry)
    (h : execSteps d steps i = .ok (d', log)) :
    log.length = steps.length
    ∧ d' = applySuccesses d steps
    ∧ d'.shape = lastSuccessFold d.shape log
    ∧ ∀ e ∈ log,
        (e.status = "success" → e.before_shape.isSome ∧ e.after_shape.isSome
          ∧ e.rows_changed.isSome ∧ e.columns_changed.isSome)
      ∧ (e.status = "failed" → e.error.isSome)
      ∧ (e.status = "skipped" → e.reason.isSome)
      ∧ (e.status = "success" ∨ e.status = "failed" ∨ e.status = "skipped") := by
  induction steps generalizing d i d' log with
  | nil =>
    simp only [execSteps, Except.ok.injEq, Prod.mk.injEq] at h
    obtain ⟨h1, h2⟩ := h
    subst h1; subst h2
    exact ⟨rfl, rfl, rfl, by simp⟩
  | cons s rest ih =>
    cases s with
    | dict step =>
      simp only [execSteps] at h
      cases hf : findOpFn (dictGet step "op") with
      | none =>
        simp only [hf] at h
        cases h1 : execSteps d rest (i + 1) with
        | error e => rw [h1] at h; simp [Except.map] at h
        | ok dl =>
          obtain ⟨dA, lgA⟩ := dl
          rw [h1] at h
          simp only [Except.map, Except.ok.injEq, Prod.mk.injEq] at h
          obtain ⟨hd1, hlg⟩ := h
          subst hd1
          subst hlg
          obtain ⟨ihlen, ihapp, ihshape, ihfields⟩ := ih d (i + 1) dA lgA h1
          refine ⟨by simp [ihlen], ?_, ?_, ?_⟩
          · simp only [applySuccesses, hf]
            exact ihapp
          · simpa [lastSuccessFold, skipEntry] using ihshape
          · intro e he
            rcases List.mem_cons.mp he with rfl | hmem
            · refine ⟨?_, ?_, ?_, ?_⟩ <;> simp [skipEntry]
            · exact ihfields e hmem
      | some f =>
        simp only [hf] at h
        cases hr : runOp f d ((dictGet step "params").getD (.dict [])) with
        | ok d1 =>
          rw [hr] at h
          dsimp only at h
          cases h1 : execSteps d1 rest (i + 1) with
          | error e => rw [h1] at h; simp [Except.map] at h
          | ok dl =>
            obtain ⟨dA, lgA⟩ := dl
            rw [h1] at h
            simp only [Except.map, Except.ok.injEq, Prod.mk.injEq] at h
            obtain ⟨hd1, hlg⟩ := h
            subst hd1
            subst hlg
            obtain ⟨ihlen, ihapp, ihshape, ihfields⟩ := ih d1 (i + 1) dA lgA h1
            refine ⟨by simp [ihlen], ?_, ?_, ?_⟩
            · simp only [applySuccesses, hf, hr]
              exact ihapp
            · simpa [lastSuccessFold, successEntry] using ihshape
            · intro e he
              rcases List.mem_cons.mp he with rfl | hmem
              · refine ⟨?_, ?_, ?_, ?_⟩ <;> simp [successEntry]
              · exact ihfields e hmem
        | error err =>
          rw [hr] at h
          dsimp only at h
          cases h1 : execSteps d rest (i + 1) with
          | error e => rw [h1] at h; simp [Except.map] at h
          | ok dl =>
            obtain ⟨dA, lgA⟩ := dl
            rw [h1] at h
            simp only [Except.map, Except.ok.injEq, Prod.mk.injEq] at h
            obtain ⟨hd1, hlg⟩ := h
            subst hd1
            subst hlg
            obtain ⟨ihlen, ihapp, ihshape, ihfields⟩ := ih d (i + 1) dA lgA h1
            refine ⟨by simp [ihlen], ?_, ?_, ?_⟩
            · simp only [applySuccesses, hf, hr]
              exact ihapp
            · simpa [lastSuccessFold, failEntry] using ihshape
            · intro e he
              rcases List.mem_cons.mp he with rfl | hmem
              · refine ⟨?_, ?_, ?_, ?_⟩ <;> simp [failEntry]
              · exact ihfields e hmem
    | str s => simp [execSteps] at h
    | num q => simp [execSteps] at h
    | bool b => simp [execSteps] at h
    | none => simp [execSteps] at h
    | list l => simp [execSteps] at h

end ExecutorLemmas

section SummaryLemmas

open PipelineExecutor

/-- On a log whose `success` entries all carry `after_shape`, the fold form
of "shape of the last success" agrees with the filter/`getLast?` form. -/
theorem lastSuccessFold_eq_afterShape (log : List LogEntry)
    (h : ∀ e ∈ log, e.status = "success" → e.after_shape.isSome) (orig : Nat × Nat) :
    lastSuccessFold orig log = lastSuccessAfterShape orig log := by
  induction log generalizing orig with
  | nil => rfl
  | cons e l ih =>
    have hl : ∀ e' ∈ l, e'.status = "success" → e'.after_shape.isSome :=
      fun e' he' => h e' (List.mem_cons_of_mem _ he')
    by_cases hs : e.status = "success"
    · obtain ⟨a, ha⟩ := Option.isSome_iff_exists.mp (h e (List.mem_cons_self _ _) hs)
      have hfold : lastSuccessFold orig (e :: l) = lastSuccessFold a l := by
        simp [lastSuccessFold, hs, ha]
      rw [hfold, ih hl a]
      unfold lastSuccessAfterShape
      have hfe : (e :: l).filter (fun x => x.status == "success")
          = e :: l.filter (fun x => x.status == "success") := by
        simp [List.filter_cons, hs]
      rw [hfe]
      cases hfl : l.filter (fun x => x.status == "success") with
      | nil => simp [hfl, ha]
      | cons x xs =>
        rw [List.getLast?_cons_cons]
        have hne : (x :: xs) ≠ ([] : List LogEntry) := by simp
        have hlast : (x :: xs).getLast? = some ((x :: xs).getLast hne) :=
          List.getLast?_eq_getLast_of_ne_nil hne
        rw [hlast]
        have hmem : (x :: xs).getLast hne ∈ l.filter (fun x => x.status == "success") := by
          rw [hfl]
          exact List.getLast_mem hne
        have hmem' := List.mem_filter.mp hmem
        have hsucc : ((x :: xs).getLast hne).status = "success" := by
          simpa using hmem'.2
        obtain ⟨b, hb⟩ := Option.isSome_iff_exists.mp (hl _ hmem'.1 hsucc)
        simp [hb]
    · have hfold : lastSuccessFold orig (e :: l) = lastSuccessFold orig l := by
        simp [lastSuccessFold, hs]
      rw [hfold, ih hl orig]
      unfold lastSuccessAfterShape
      rw [show (e :: l).filter (fun x => x.status == "success")
          = l.filter (fun x => x.status == "success") from by simp [List.filter_cons, hs]]

end SummaryLemmas

section MainExecutorTheorems

open PipelineExecutor

/-- `C5`: for every dataset and plan on which `execute` returns, the
summary's `final_shape` equals the `after_shape` of the last `success` log
entry (the original shape when no step succeeded), and the
total/successful/failed/skipped counts are exactly the log's entry counts
overall and per status. -/
theorem execute_summary_consistent (df : DataFrame) (plan : List (String × PVal))
    (res : ExecResult) (h : execute df plan = .ok res) :
    res.summary.final_shape = lastSuccessAfterShape df.shape res.execution_log
    ∧ res.summary.original_shape = df.shape
    ∧ res.summary.total_steps = res.execution_log.length
    ∧ res.summary.successful_steps
        = res.execution_log.countP (fun e => e.status == "success")
    ∧ res.summary.failed_steps
        = res.execution_log.countP (fun e => e.status == "failed")
    ∧ res.summary.skipped_steps
        = res.execution_log.countP (fun e => e.status == "skipped") := by
  unfold execute at h
  cases hs : stepsOf plan with
  | error e => rw [hs] at h; exact absurd h (by simp)
  | ok steps =>
    rw [hs] at h
    dsimp only at h
    cases he : execSteps df steps 0 with
    | error e => rw [he] at h; exact absurd h (by simp)
    | ok dl =>
      obtain ⟨d', log⟩ := dl
      rw [he] at h
      dsimp only at h
      simp only [Except.ok.injEq] at h
      subst h
      obtain ⟨-, -, hshape, hfields⟩ := execSteps_spec steps df 0 d' log he
      refine ⟨?_, rfl, rfl, rfl, rfl, rfl⟩
      have hsome : ∀ e ∈ log, e.status = "success" → e.after_shape.isSome :=
        fun e he' hst => (hfields e he').1 hst |>.2.1
      simpa [generateSummary] using
        hshape.trans (lastSuccessFold_eq_afterShape log hsome df.shape)

/-- `C5` witness: the summary equations at a concrete dataset and plan. -/
theorem execute_summary_consistent_witness :
    toyExecEmpty.summary.final_shape
        = lastSuccessAfterShape toyDf.shape toyExecEmpty.execution_log
    ∧ toyExecEmpty.summary.original_shape = toyDf.shape
    ∧ toyExecEmpty.summary.total_steps = toyExecEmpty.execution_log.length
    ∧ toyExecEmpty.summary.successful_steps
        = toyExecEmpty.execution_log.countP (fun e => e.status == "success")
    ∧ toyExecEmpty.summary.failed_steps
        = toyExecEmpty.execution_log.countP (fun e => e.status == "failed")
    ∧ toyExecEmpty.summary.skipped_steps
        = toyExecEmpty.execution_log.countP (fun e => e.status == "skipped") :=
  execute_summary_consistent toyDf planEmptySteps toyExecEmpty rfl

/-- `C8` (amended): a completed `execute` produces exactly one log entry per
step; every `success` entry carries `before_shape`, `after_shape`,
`rows_changed` and `columns_changed`; `failed` entries carry the error
message and `skipped` entries the reason — the four shape/delta fields are
present on `success` entries only, not on every entry as the spec stated. -/
theorem execute_log_one_entry_per_step (df : DataFrame) (plan : List (String × PVal))
    (steps : List PVal) (res : ExecResult)
    (hs : stepsOf plan = .ok steps) (h : execute df plan = .ok res) :
    res.execution_log.length = steps.length
    ∧ ∀ e ∈ res.execution_log,
        (e.status = "success" → e.before_shape.isSome ∧ e.after_shape.isSome
          ∧ e.rows_changed.isSome ∧ e.columns_changed.isSome)
      ∧ (e.status = "failed" → e.error.isSome)
      ∧ (e.status = "skipped" → e.reason.isSome)
      ∧ (e.status = "success" ∨ e.status = "failed" ∨ e.status = "skipped") := by
  unfold execute at h
  rw [hs] at h
  dsimp only at h
  cases he : execSteps df steps 0 with
  | error e => rw [he] at h; exact absurd h (by simp)
  | ok dl =>
    obtain ⟨d', log⟩ := dl
    rw [he] at h
    dsimp only at h
    simp only [Except.ok.injEq] at h
    subst h
    obtain ⟨hlen, -, -, hfields⟩ := execSteps_spec steps df 0 d' log he
    exact ⟨hlen, hfields⟩

/-- `C8` witness: the amended field guarantees at a concrete run. -/
theorem execute_log_one_entry_per_step_witness :
    toyExecBogus.execution_log.length = [PVal.dict [("op", .str "bogus")]].length
    ∧ ∀ e ∈ toyExecBogus.execution_log,
        (e.status = "success" → e.before_shape.isSome ∧ e.after_shape.isSome
          ∧ e.rows_changed.isSome ∧ e.columns_changed.isSome)
      ∧ (e.status = "failed" → e.error.isSome)
      ∧ (e.status = "skipped" → e.reason.isSome)
      ∧ (e.status = "success" ∨ e.status = "failed" ∨ e.status = "skipped") :=
  execute_log_one_entry_per_step toyDf planBogusStep
    [PVal.dict [("op", .str "bogus")]] toyExecBogus rfl rfl

end MainExecutorTheorems

section RollbackTheorem

open PipelineExecutor

/-- `C1`: if the transform invoked at step `k` (position `pre.length`, i.e.
step number `pre.length + 1`) raises, `execute` logs that step as `failed`
with the error message, the dataset version seen by step `k+1` is exactly
`dk` — the version produced by the pre-`k` steps, which equals the fold of
their successful transforms only — and execution continues through every
remaining step rather than aborting (one log entry per remaining step and a
normal return). -/
theorem execute_failed_step_rollback
    (df : DataFrame) (plan : List (String × PVal))
    (pre post : List PVal) (stepD : List (String × PVal))
    (f : OpFn) (msg : String) (dk : DataFrame) (lgPre : List LogEntry)
    (hsteps : stepsOf plan = .ok (pre ++ PVal.dict stepD :: post))
    (hwf : ∀ s ∈ post, ∃ dd, s = PVal.dict dd)
    (hpre : execSteps df pre 0 = .ok (dk, lgPre))
    (hf : findOpFn (dictGet stepD "op") = some f)
    (herr : runOp f dk ((dictGet stepD "params").getD (.dict [])) = .error msg) :
    dk = applySuccesses df pre
    ∧ ∃ dfin lgPost,
        execSteps dk post (pre.length + 1) = .ok (dfin, lgPost)
        ∧ lgPost.length = post.length
        ∧ execute df plan = .ok
            { processed_df := dfin,
              execution_log :=
                lgPre ++ failEntry pre.length (dictGet stepD "op") msg :: lgPost,
              summary := generateSummary df.shape dfin.shape
                (lgPre ++ failEntry pre.length (dictGet stepD "op") msg :: lgPost) } := by
  obtain ⟨-, happly, -, -⟩ := execSteps_spec pre df 0 dk lgPre hpre
  refine ⟨happly, ?_⟩
  obtain ⟨dfin, lgPost, hpost, hlen⟩ := execSteps_total post hwf dk (pre.length + 1)
  refine ⟨dfin, lgPost, hpost, hlen, ?_⟩
  have hsplit := execSteps_append_ok pre (PVal.dict stepD :: post) df 0 dk lgPre hpre
  rw [Nat.zero_add] at hsplit
  have hcons : execSteps dk (PVal.dict stepD :: post) pre.length =
      (execSteps dk post (pre.length + 1)).map
        (fun dl => (dl.1, failEntry pre.length (dictGet stepD "op") msg :: dl.2)) := by
    simp only [execSteps, hf]
    rw [herr]
  unfold execute
  rw [hsteps]
  dsimp only
  rw [hsplit, hcons, hpost]
  simp [Except.map]

/-- `C1` witness: a concrete plan whose first step's transform
(`drop_duplicates` on an absent subset column) raises. -/
theorem execute_failed_step_rollback_witness :
    toyDf = applySuccesses toyDf []
    ∧ ∃ dfin lgPost,
        execSteps toyDf [sortAgeStep] (List.length ([] : List PVal) + 1)
            = .ok (dfin, lgPost)
        ∧ lgPost.length = [sortAgeStep].length
        ∧ execute toyDf failPlan = .ok
            { processed_df := dfin,
              execution_log := [] ++ failEntry (List.length ([] : List PVal))
                (dictGet ghostDupStep "op")
                "KeyError: subset columns not found in the DataFrame" :: lgPost,
              summary := generateSummary toyDf.shape dfin.shape
                ([] ++ failEntry (List.length ([] : List PVal))
                  (dictGet ghostDupStep "op")
                  "KeyError: subset columns not found in the DataFrame" :: lgPost) } :=
  execute_failed_step_rollback toyDf failPlan [] [sortAgeStep] ghostDupStep
    CleaningOperations.drop_duplicates
    "KeyError: subset columns not found in the DataFrame" toyDf [] rfl
    (by intro s hs; rw [List.mem_singleton] at hs
        exact ⟨[("op", .str "sort_by"), ("params", .dict [("column", .str "age")])], hs⟩)
    rfl rfl rfl

end RollbackTheorem

section HeapTheorem

open PipelineExecutor

/-- `C6`: neither `execute` nor `dry_run` mutates or aliases the caller's
dataset.  On the object heap, a run reads the handle, allocates its private
working copy (`df.copy()` / the sample) plus result frames, and writes no
existing cell — afterwards every pre-existing heap cell, the caller's
dataset included, is bit-identical to its state before the call. -/
theorem execute_dry_run_preserve_caller (h : Heap) (r : Nat)
    (plan : List (String × PVal)) (j : Nat) (hj : j < h.length) :
    (executeH h r plan).1[j]? = h[j]? ∧ (dryRunH h r plan).1[j]? = h[j]? := by
  constructor
  · unfold executeH
    cases hh : List.get? h r with
    | none => rfl
    | some df =>
      dsimp only
      cases execute df plan with
      | error e => exact List.getElem?_append_left hj
      | ok res => exact List.getElem?_append_left hj
  · unfold dryRunH
    cases hh : List.get? h r with
    | none => rfl
    | some df =>
      dsimp only
      cases dry_run df plan with
      | error e => exact List.getElem?_append_left hj
      | ok res => exact List.getElem?_append_left hj

/-- `C6` witness: a one-cell heap holding the caller's dataset. -/
theorem execute_dry_run_preserve_caller_witness :
    (executeH [toyDf] 0 planEmptySteps).1[0]? = [toyDf][0]?
    ∧ (dryRunH [toyDf] 0 planEmptySteps).1[0]? = [toyDf][0]? :=
  execute_dry_run_preserve_caller [toyDf] 0 planEmptySteps 0 (by decide)

end HeapTheorem

section DryRunTheorem

open PipelineExecutor

/-- The dry-run step loop never raises on a plan whose steps are all
mappings. -/
theorem drySteps_total (steps : List PVal)
    (hwf : ∀ s ∈ steps, ∃ dd, s = PVal.dict dd) (d : DataFrame) (i : Nat) :
    ∃ d' log, drySteps d steps i = .ok (d', log) := by
  induction steps generalizing d i with
  | nil => exact ⟨d, [], rfl⟩
  | cons s rest ih =>
    obtain ⟨dd, rfl⟩ := hwf s (List.mem_cons_self s rest)
    have hwf' : ∀ s ∈ rest, ∃ dd, s = PVal.dict dd :=
      fun s hs => hwf s (List.mem_cons_of_mem _ hs)
    simp only [drySteps]
    cases hf : findOpFn (dictGet dd "op") with
    | none =>
      obtain ⟨d', log, h1⟩ := ih hwf' d (i + 1)
      dsimp only
      rw [h1]
      exact ⟨_, _, rfl⟩
    | some f =>
      dsimp only
      cases hr : runOp f d ((dictGet dd "params").getD (.dict [])) with
      | ok d1 =>
        obtain ⟨d', log, h1⟩ := ih hwf' d1 (i + 1)
        dsimp only
        rw [h1]
        exact ⟨_, _, rfl⟩
      | error e =>
        obtain ⟨d', log, h1⟩ := ih hwf' d (i + 1)
        dsimp only
        rw [h1]
        exact ⟨_, _, rfl⟩

/-- `C10`: on a dataset with at least one row (and a plan the loop can
iterate), `dry_run` returns a result; the sample holds
`min(1000, row_count) ≥ 1` rows, so `sample_initial_rows` — the divisor of
the `estimated_final_shape` extrapolation — is positive and the division is
well-defined (on zero rows the same expression raises `ZeroDivisionError`). -/
theorem dry_run_ok_of_nonempty (df : DataFrame) (plan : List (String × PVal))
    (steps : List PVal)
    (hsteps : stepsOf plan = .ok steps)
    (hwf : ∀ s ∈ steps, ∃ dd, s = PVal.dict dd)
    (hrows : 1 ≤ df.rows.length) :
    (sampleDf df).rows.length = min 1000 df.rows.length
    ∧ 0 < (sampleDf df).rows.length
    ∧ ∃ cur log, drySteps (sampleDf df) steps 0 = .ok (cur, log)
        ∧ dry_run df plan = .ok
            { sample_size := min 1000 df.rows.length,
              estimated_impact := log,
              estimated_final_shape :=
                ((df.rows.length * cur.rows.length) / (sampleDf df).rows.length,
                 cur.cols.length) } := by
  have hlen : (sampleDf df).rows.length = min 1000 df.rows.length := by
    unfold sampleDf
    by_cases hc : 1000 < df.rows.length
    · rw [if_pos hc]
      simp [List.length_take]
    · rw [if_neg hc]
      omega
  have hpos : 0 < (sampleDf df).rows.length := by omega
  refine ⟨hlen, hpos, ?_⟩
  obtain ⟨cur, log, hd⟩ := drySteps_total steps hwf (sampleDf df) 0
  refine ⟨cur, log, hd, ?_⟩
  unfold dry_run
  rw [hsteps]
  dsimp only
  rw [hd]
  dsimp only
  rw [if_neg (by omega)]

/-- `C10` witness: dry-running a concrete two-row dataset. -/
theorem dry_run_ok_of_nonempty_witness :
    (sampleDf toyDf).rows.length = min 1000 toyDf.rows.length
    ∧ 0 < (sampleDf toyDf).rows.length
    ∧ ∃ cur log, drySteps (sampleDf toyDf) [] 0 = .ok (cur, log)
        ∧ dry_run toyDf planEmptySteps = .ok
            { sample_size := min 1000 toyDf.rows.length,
              estimated_impact := log,
              estimated_final_shape :=
                ((toyDf.rows.length * cur.rows.length) / (sampleDf toyDf).rows.length,
                 cur.cols.length) } :=
  dry_run_ok_of_nonempty toyDf planEmptySteps [] rfl (by simp) (by decide)

end DryRunTheorem

section IdempotenceTheorem

open CleaningOperations

/-- `keep="first"` dedup is idempotent for any seen-set. -/
theorem dedupFirst_idem (key : List Value → List Value)
    (l : List (List Value)) : ∀ seen,
    dedupFirst key seen (dedupFirst key seen l) = dedupFirst key seen l := by
  induction l with
  | nil => intro seen; rfl
  | cons r rs ih =>
    intro seen
    by_cases hmem : key r ∈ seen
    · simp [dedupFirst, hmem, ih seen]
    · simp [dedupFirst, hmem, ih (key r :: seen)]

/-- `keep="last"` dedup returns a sublist of its input. -/
theorem dedupLast_sublist (key : List Value → List Value) (l : List (List Value)) :
    List.Sublist (dedupLast key l) l := by
  induction l with
  | nil => simp [dedupLast]
  | cons r rs ih =>
    by_cases hmem : key r ∈ rs.map key
    · simp only [dedupLast, if_pos hmem]
      exact ih.cons r
    · simp only [dedupLast, if_neg hmem]
      exact ih.cons₂ r

/-- `keep="last"` dedup is idempotent. -/
theorem dedupLast_idem (key : List Value → List Value) (l : List (List Value)) :
    dedupLast key (dedupLast key l) = dedupLast key l := by
  induction l with
  | nil => rfl
  | cons r rs ih =>
    by_cases hmem : key r ∈ rs.map key
    · simp [dedupLast, hmem, ih]
    · simp only [dedupLast, if_neg hmem]
      have hsub : List.Sublist ((dedupLast key rs).map key) (rs.map key) :=
        (dedupLast_sublist key rs).map key
      have hmem' : key r ∉ (dedupLast key rs).map key :=
        fun hc => hmem (hsub.subset hc)
      simp [dedupLast, hmem', ih]

/-- `keep=False` dedup is idempotent: every surviving row's key is unique in
the original list, hence also unique among the survivors. -/
theorem dedupAll_idem (key : List Value → List Value) (l : List (List Value)) :
    dedupAll key (dedupAll key l) = dedupAll key l := by
  unfold dedupAll
  rw [List.filter_eq_self]
  intro r hr
  have hr' := hr
  rw [List.mem_filter] at hr'
  obtain ⟨hmem, hcount⟩ := hr'
  have hcount1 : l.countP (fun r' => decide (key r' = key r)) = 1 := by
    simpa using hcount
  have hle : (l.filter (fun r0 =>
        decide (l.countP (fun r' => decide (key r' = key r0)) = 1))).countP
      (fun r' => decide (key r' = key r))
      ≤ l.countP (fun r' => decide (key r' = key r)) := by
    rw [List.countP_filter]
    exact List.countP_mono_left (fun a _ ha => by
      simp only [Bool.and_eq_true, decide_eq_true_eq] at ha ⊢
      exact ha.1)
  have hge : 0 < (l.filter (fun r0 =>
        decide (l.countP (fun r' => decide (key r' = key r0)) = 1))).countP
      (fun r' => decide (key r' = key r)) := by
    rw [List.countP_pos_iff]
    exact ⟨r, hr, by simp⟩
  simp only [decide_eq_true_eq]
  omega

/-- `C9`: `drop_duplicates` is idempotent — applying it a second time with
the same parameters to a frame it produced returns that frame unchanged.
(The hypothesis also covers raising parameter combinations: when the first
application raises there is no output to re-deduplicate.) -/
theorem drop_duplicates_idempotent (df : DataFrame) (params : List (String × PVal))
    (d' : DataFrame) (h : drop_duplicates df params = .ok d') :
    drop_duplicates d' params = .ok d' := by
  unfold drop_duplicates at h ⊢
  cases hsub : resolveSubset df.cols params with
  | error e => rw [hsub] at h; exact absurd h (by simp)
  | ok idxs =>
    rw [hsub] at h
    dsimp only at h
    cases hkeep : resolveKeep params with
    | error e => rw [hkeep] at h; exact absurd h (by simp)
    | ok mode =>
      rw [hkeep] at h
      dsimp only at h
      simp only [Except.ok.injEq] at h
      subst h
      rw [show ({ cols := df.cols, rows := _ } : DataFrame).cols = df.cols from rfl, hsub]
      dsimp only
      cases mode with
      | first => simp [dedupFirst_idem]
      | last => simp [dedupLast_idem]
      | dropAll => simp [dedupAll_idem]

/-- `C9` witness: deduplicating an already-deduplicated concrete frame. -/
theorem drop_duplicates_idempotent_witness :
    drop_duplicates dedupedDf [] = .ok dedupedDf :=
  drop_duplicates_idempotent dupDf [] dedupedDf rfl

end IdempotenceTheorem

section NoopLemmas

/-- An absent column name has no index. -/
theorem colIdx_none (df : DataFrame) (c : String) (h : c ∉ df.cols) :
    df.colIdx c = Option.none :=
  findIdx_none_of_not_mem c df.cols h

/-- On a rectangular frame, selecting every column index is the identity. -/
theorem selectIdxs_range (df : DataFrame) (hrect : df.Rect) :
    df.selectIdxs (List.range df.cols.length) = df := by
  obtain ⟨cols, rows⟩ := df
  unfold DataFrame.selectIdxs
  simp only [DataFrame.mk.injEq]
  constructor
  · exact map_range_getD cols ""
  · rw [show rows.map (fun r => (List.range cols.length).map (cellAt r)) = rows.map id from ?_]
    · simp
    · apply List.map_congr_left
      intro r hr
      have hlen : r.length = cols.length := hrect r hr
      rw [← hlen]
      exact map_range_getD r Value.na
  -- `cellAt r` is `fun i => r.getD i .na`

/-- Evaluating an expression all of whose column references are absent
raises inside `DataFrame.eval`. -/
theorem evalExprDf_error (df : DataFrame) (e : PVal)
    (h : ∀ n ∈ exprRefsP e, n ∉ df.cols) :
    ∃ msg, FeatureOperations.evalExprDf df e = .error msg := by
  cases e with
  | str s =>
    simp only [exprRefsP] at h
    unfold FeatureOperations.evalExprDf
    dsimp only
    cases hsp : s.splitOn " " with
    | nil => exact ⟨_, rfl⟩
    | cons a tl =>
      rw [hsp] at h
      cases tl with
      | nil =>
        dsimp only at h ⊢
        have ha : a ∉ df.cols := h a (by simp)
        rw [colIdx_none df a ha]
        exact ⟨_, rfl⟩
      | cons o tl2 =>
        cases tl2 with
        | nil => exact ⟨_, rfl⟩
        | cons b tl3 =>
          cases tl3 with
          | nil =>
            dsimp only at h ⊢
            by_cases hop : o = "+" ∨ o = "-" ∨ o = "*"
            · rw [if_pos hop]
              have ha : a ∉ df.cols := by
                apply h a
                rw [if_pos hop]
                simp
              rw [colIdx_none df a ha]
              exact ⟨_, rfl⟩
            · rw [if_neg hop]
              exact ⟨_, rfl⟩
          | cons c tl4 => exact ⟨_, rfl⟩
  | num q => exact ⟨_, rfl⟩
  | bool b => exact ⟨_, rfl⟩
  | none => exact ⟨_, rfl⟩
  | list l => exact ⟨_, rfl⟩
  | dict d => exact ⟨_, rfl⟩

end NoopLemmas

section NoopTheorem

open CleaningOperations FeatureOperations PipelineExecutor

/-- `C7` (amended): every registered operation other than `drop_duplicates`
treats column parameters naming only absent columns as a no-op, returning
the dataset unchanged instead of raising (`drop_duplicates` with an absent
`subset` column raises, see the counterexample); and when such a no-op step
runs through the executor it is logged as `success` with
`rows_changed = 0` and `columns_changed = 0`. -/
theorem absent_column_ops_noop :
    (∀ (df : DataFrame) (params : List (String × PVal)) (l : List PVal),
      df.Rect →
      pyGet params "columns" (.list []) = .list l →
      (∀ v ∈ l, ∀ s, v = PVal.str s → s ∉ df.cols) →
      drop_columns df params = .ok df)
    ∧ (∀ (df : DataFrame) (params : List (String × PVal)) (c : String),
      pyGet params "column" .none = .str c → c ∉ df.cols →
      fill_missing df params = .ok df)
    ∧ (∀ (df : DataFrame) (params : List (String × PVal)) (c : String),
      pyGet params "column" .none = .str c → c ∉ df.cols →
      remove_outliers df params = .ok df)
    ∧ (∀ (df : DataFrame) (params : List (String × PVal)) (c : String),
      pyGet params "column" .none = .str c → c ∉ df.cols →
      filter_rows df params = .ok df)
    ∧ (∀ (df : DataFrame) (params : List (String × PVal)) (c : String),
      pyGet params "column" .none = .str c → c ∉ df.cols →
      sort_by df params = .ok df)
    ∧ (∀ (df : DataFrame) (params : List (String × PVal)) (l : List PVal),
      pyGet params "columns" (.list []) = .list l →
      (∀ v ∈ l, ∀ s, v = PVal.str s → s ∉ df.cols) →
      scale_numeric df params = .ok df)
    ∧ (∀ (df : DataFrame) (params : List (String × PVal)) (l : List PVal),
      pyGet params "columns" (.list []) = .list l →
      (∀ v ∈ l, ∀ s, v = PVal.str s → s ∉ df.cols) →
      encode_categorical df params = .ok df)
    ∧ (∀ (df : DataFrame) (params : List (String × PVal)),
      pyGet params "type" (.str "arithmetic") = .str "arithmetic" →
      (∀ n ∈ exprRefsP (pyGet params "expression" .none), n ∉ df.cols) →
      create_feature df params = .ok df)
    ∧ (∀ (df : DataFrame) (params : List (String × PVal)),
      pyGet params "type" (.str "arithmetic") = .str "binning" →
      (∀ s, pyGet params "column" .none = PVal.str s → s ∉ df.cols) →
      create_feature df params = .ok df)
    ∧ (∀ (df : DataFrame) (params : List (String × PVal)) (l : List PVal),
      pyGet params "type" (.str "arithmetic") = .str "interaction" →
      pyGet params "columns" (.list []) = .list l →
      (∀ v ∈ l, ∀ s, v = PVal.str s → s ∉ df.cols) →
      create_feature df params = .ok df)
    ∧ (∀ (df : DataFrame) (params : List (String × PVal)) (c : String),
      pyGet params "column" .none = .str c → c ∉ df.cols →
      extract_datetime_features df params = .ok df)
    ∧ (∀ (df : DataFrame) (params : List (String × PVal)) (c : String),
      pyGet params "column" .none = .str c → c ∉ df.cols →
      create_text_features df params = .ok df)
    ∧ (∀ (df : DataFrame) (params : List (String × PVal)),
      (∀ s, pyGet params "group_by" .none = PVal.str s → s ∉ df.cols) →
      (∀ s, pyGet params "agg_column" .none = PVal.str s → s ∉ df.cols) →
      aggregate_features df params = .ok df)
    ∧ (∀ (df : DataFrame) (params : List (String × PVal)) (c : String),
      pyGet params "column" .none = .str c → c ∉ df.cols →
      handle_high_cardinality df params = .ok df)
    ∧ (∀ (df : DataFrame) (stepD : List (String × PVal)) (rest : List PVal)
        (i : Nat) (f : OpFn),
      findOpFn (dictGet stepD "op") = some f →
      runOp f df ((dictGet stepD "params").getD (.dict [])) = .ok df →
      execSteps df (PVal.dict stepD :: rest) i =
        (execSteps df rest (i + 1)).map (fun dl => (dl.1,
          successEntry i (dictGet stepD "op")
            ((dictGet stepD "params").getD (.dict [])) df.shape df.shape :: dl.2))
      ∧ (successEntry i (dictGet stepD "op")
          ((dictGet stepD "params").getD (.dict [])) df.shape df.shape).status
            = "success"
      ∧ (successEntry i (dictGet stepD "op")
          ((dictGet stepD "params").getD (.dict [])) df.shape df.shape).rows_changed
            = some 0
      ∧ (successEntry i (dictGet stepD "op")
          ((dictGet stepD "params").getD (.dict [])) df.shape df.shape).columns_changed
            = some 0) := by
  refine ⟨?_, ?_, ?_, ?_, ?_, ?_, ?_, ?_, ?_, ?_, ?_, ?_, ?_, ?_, ?_⟩
  · -- drop_columns
    intro df params l hrect hcols habs
    unfold drop_columns
    rw [hcols]
    dsimp only [iterElemsPy]
    have hdrop : l.filterMap (fun v => match v with
        | PVal.str s => if df.cols.contains s then some s else Option.none
        | _ => Option.none) = [] := by
      rw [List.filterMap_eq_nil_iff]
      intro v hv
      cases v with
      | str s =>
        have : s ∉ df.cols := habs (PVal.str s) hv s rfl
        simp [this]
      | num q => rfl
      | bool b => rfl
      | none => rfl
      | list l2 => rfl
      | dict d2 => rfl
    rw [hdrop]
    rw [show (List.range df.cols.length).filter
        (fun i => !(List.contains [] (df.cols.getD i ""))) = List.range df.cols.length
      from List.filter_eq_self.mpr (fun i _ => by simp)]
    rw [selectIdxs_range df hrect]
  · -- fill_missing
    intro df params c hc hnot
    unfold fill_missing
    rw [hc]
    dsimp only
    rw [colIdx_none df c hnot]
  · -- remove_outliers
    intro df params c hc hnot
    unfold remove_outliers
    rw [hc]
    dsimp only
    rw [colIdx_none df c hnot]
  · -- filter_rows
    intro df params c hc hnot
    unfold filter_rows
    rw [hc]
    dsimp only
    rw [colIdx_none df c hnot]
  · -- sort_by
    intro df params c hc hnot
    unfold sort_by
    rw [hc]
    dsimp only
    rw [colIdx_none df c hnot]
  · -- scale_numeric
    intro df params l hcols habs
    unfold scale_numeric
    rw [hcols]
    dsimp only [iterElemsPy]
    have hsel : l.filterMap (fun v => match v with
        | PVal.str s => df.colIdx s
        | _ => Option.none) = [] := by
      rw [List.filterMap_eq_nil_iff]
      intro v hv
      cases v with
      | str s => exact colIdx_none df s (habs (PVal.str s) hv s rfl)
      | num q => rfl
      | bool b => rfl
      | none => rfl
      | list l2 => rfl
      | dict d2 => rfl
    rw [hsel]
    rfl
  · -- encode_categorical
    intro df params l hcols habs
    unfold encode_categorical
    rw [hcols]
    dsimp only [iterElemsPy]
    have hsel : l.filterMap (fun v => match v with
        | PVal.str s => if df.cols.contains s then some s else Option.none
        | _ => Option.none) = [] := by
      rw [List.filterMap_eq_nil_iff]
      intro v hv
      cases v with
      | str s =>
        have : s ∉ df.cols := habs (PVal.str s) hv s rfl
        simp [this]
      | num q => rfl
      | bool b => rfl
      | none => rfl
      | list l2 => rfl
      | dict d2 => rfl
    rw [hsel]
    rfl
  · -- create_feature, arithmetic
    intro df params htype habs
    unfold create_feature
    rw [htype]
    dsimp only
    obtain ⟨msg, hmsg⟩ := evalExprDf_error df (pyGet params "expression" .none) habs
    rw [hmsg]
    rfl
  · -- create_feature, binning
    intro df params htype habs
    unfold create_feature
    rw [htype]
    dsimp only
    cases hc : pyGet params "column" .none with
    | str s =>
      dsimp only
      rw [colIdx_none df s (habs s hc)]
      rfl
    | num q => rfl
    | bool b => rfl
    | none => rfl
    | list l2 => rfl
    | dict d2 => rfl
  · -- create_feature, interaction
    intro df params l htype hcols habs
    have hneg : ¬(2 ≤ l.length ∧ l.all (fun v => match v with
        | PVal.str s => df.cols.contains s
        | _ => false) = true) := by
      rintro ⟨hlen2, hall⟩
      cases l with
      | nil => exact absurd hlen2 (by simp)
      | cons v vs =>
        have hv := (List.all_eq_true.mp hall) v (List.mem_cons_self v vs)
        cases v with
        | str s =>
          have hs : s ∉ df.cols := habs (PVal.str s) (List.mem_cons_self _ _) s rfl
          exact hs (by simpa using hv)
        | num q => simp at hv
        | bool b => simp at hv
        | none => simp at hv
        | list l2 => simp at hv
        | dict d2 => simp at hv
    unfold create_feature
    rw [htype]
    rw [hcols]
    dsimp only [iterElemsPy]
    rw [if_neg hneg]
    rfl
  · -- extract_datetime_features
    intro df params c hc hnot
    unfold extract_datetime_features
    rw [hc]
    dsimp only
    rw [colIdx_none df c hnot]
  · -- create_text_features
    intro df params c hc hnot
    unfold create_text_features
    rw [hc]
    dsimp only
    rw [colIdx_none df c hnot]
  · -- aggregate_features
    intro df params hg ha
    unfold aggregate_features
    cases hgv : pyGet params "group_by" .none with
    | str s =>
      dsimp only
      rw [colIdx_none df s (hg s hgv)]
    | num q => rfl
    | bool b => rfl
    | none => rfl
    | list l2 => rfl
    | dict d2 => rfl
  · -- handle_high_cardinality
    intro df params c hc hnot
    unfold handle_high_cardinality
    rw [hc]
    dsimp only
    rw [colIdx_none df c hnot]
  · -- executor logging of a registered no-op step
    intro df stepD rest i f hf hok
    refine ⟨?_, rfl, by simp [successEntry], by simp [successEntry]⟩
    simp only [execSteps, hf]
    rw [hok]

end NoopTheorem

open CleaningOperations PipelineExecutor in
/-- `C7` witness: dropping the absent column `"ghost"` is a no-op on a
concrete frame, and the executor logs that step `success` with zero
deltas. -/
theorem absent_column_ops_noop_witness :
    drop_columns toyDf [("columns", .list [.str "ghost"])] = .ok toyDf
    ∧ (execSteps toyDf [PVal.dict ghostColsStep] 0 =
        (execSteps toyDf [] 1).map (fun dl => (dl.1,
          successEntry 0 (dictGet ghostColsStep "op")
            ((dictGet ghostColsStep "params").getD (.dict []))
            toyDf.shape toyDf.shape :: dl.2))
      ∧ (successEntry 0 (dictGet ghostColsStep "op")
          ((dictGet ghostColsStep "params").getD (.dict []))
          toyDf.shape toyDf.shape).status = "success"
      ∧ (successEntry 0 (dictGet ghostColsStep "op")
          ((dictGet ghostColsStep "params").getD (.dict []))
          toyDf.shape toyDf.shape).rows_changed = some 0
      ∧ (successEntry 0 (dictGet ghostColsStep "op")
          ((dictGet ghostColsStep "params").getD (.dict []))
          toyDf.shape toyDf.shape).columns_changed = some 0) :=
  ⟨absent_column_ops_noop.1 toyDf [("columns", .list [.str "ghost"])] [.str "ghost"]
    (by intro r hr; fin_cases hr <;> rfl) rfl
    (by
      intro v hv s hs
      rw [List.mem_singleton] at hv
      subst hv
      injection hs with h9
      subst h9
      decide),
   absent_column_ops_noop.2.2.2.2.2.2.2.2.2.2.2.2.2.2 toyDf ghostColsStep [] 0
    CleaningOperations.drop_columns rfl rfl⟩

section ValidatorLemmas

open PipelineValidator

/-- An iterable plan value yields an element list. -/
theorem iterable_ok (v : PVal)
    (h : (match v with
          | PVal.list _ => true
          | PVal.str _ => true
          | PVal.dict _ => true
          | _ => false) = true) :
    ∃ l, CleaningOperations.iterElemsPy v = .ok l := by
  cases v with
  | list l => exact ⟨_, rfl⟩
  | str s => exact ⟨_, rfl⟩
  | dict d => exact ⟨_, rfl⟩
  | num q => simp at h
  | bool b => simp at h
  | none => simp at h

/-- `_validate_step` never raises on a mapping step whose `params` is a
mapping (or absent): it only accumulates errors. -/
theorem validateStep_ok (p : Profile) (s : PVal) (i : Nat)
    (h : wfContractStep s = true) : ∃ es, validateStep p s i = .ok es := by
  cases s with
  | dict step =>
    unfold validateStep
    dsimp only
    cases ho : dictGet step "op" with
    | none => exact ⟨_, rfl⟩
    | some op =>
      dsimp only
      by_cases hv : memberStr op VALID_OPERATIONS = true
      · rw [if_neg (by simp [hv])]
        unfold wfContractStep at h
        dsimp only at h
        cases hp : dictGet step "params" with
        | none =>
          dsimp only [Option.getD]
          repeat' split
          all_goals exact ⟨_, rfl⟩
        | some pv =>
          rw [hp] at h
          cases pv with
          | dict d =>
            dsimp only [Option.getD]
            repeat' split
            all_goals exact ⟨_, rfl⟩
          | str s2 => simp at h
          | num q => simp at h
          | bool b => simp at h
          | none => simp at h
          | list l => simp at h
      · rw [if_pos (by simpa using hv)]
        exact ⟨_, rfl⟩
  | str s2 => simp [wfContractStep] at h
  | num q => simp [wfContractStep] at h
  | bool b => simp [wfContractStep] at h
  | none => simp [wfContractStep] at h
  | list l => simp [wfContractStep] at h

/-- The per-step pass never raises on well-formed steps. -/
theorem stepErrorsAux_ok (p : Profile) (steps : List PVal)
    (h : ∀ s ∈ steps, wfContractStep s = true) :
    ∀ i, ∃ es, stepErrorsAux p steps i = .ok es := by
  induction steps with
  | nil => intro i; exact ⟨[], rfl⟩
  | cons s rest ih =>
    intro i
    obtain ⟨es, h1⟩ := validateStep_ok p s i (h s (List.mem_cons_self s rest))
    obtain ⟨es2, h2⟩ := ih (fun s hm => h s (List.mem_cons_of_mem _ hm)) (i + 1)
    exact ⟨es ++ es2, by unfold stepErrorsAux; rw [h1, h2]⟩

/-- The referential pass never raises on steps that have an `op` key and an
iterable `columns` where iterated. -/
theorem stepOrderAux_ok (steps : List PVal)
    (h : ∀ s ∈ steps, wfOrderStep s = true) :
    ∀ i dropped, ∃ es, stepOrderAux steps i dropped = .ok es := by
  induction steps with
  | nil => intro i dropped; exact ⟨[], rfl⟩
  | cons s rest ih =>
    intro i dropped
    have hs := h s (List.mem_cons_self s rest)
    have ihr := ih (fun s hm => h s (List.mem_cons_of_mem _ hm))
    cases s with
    | dict step =>
      unfold stepOrderAux
      dsimp only
      cases ho : dictGet step "op" with
      | none =>
        unfold wfOrderStep at hs
        dsimp only at hs
        rw [ho] at hs
        simp at hs
      | some op =>
        dsimp only
        cases op with
        | str opName =>
          dsimp only
          unfold wfOrderStep at hs
          dsimp only at hs
          rw [ho] at hs
          dsimp only at hs
          by_cases h1 : opName = "drop_columns"
          · rw [if_pos h1]
            rw [if_pos (by left; exact h1)] at hs
            obtain ⟨l, hl⟩ := iterable_ok _ hs
            rw [hl]
            exact ihr (i + 1) (dropped ++ l)
          · rw [if_neg h1]
            by_cases h2 : opName = "fill_missing" ∨ opName = "remove_outliers"
                ∨ opName = "sort_by"
            · rw [if_pos h2]
              obtain ⟨es, hes⟩ := ihr (i + 1) dropped
              rw [hes]
              exact ⟨_, rfl⟩
            · rw [if_neg h2]
              by_cases h3 : opName = "scale_numeric" ∨ opName = "encode_categorical"
              · rw [if_pos h3]
                rw [if_pos (by rcases h3 with h3 | h3 <;> simp [h3])] at hs
                obtain ⟨l, hl⟩ := iterable_ok _ hs
                rw [hl]
                obtain ⟨es, hes⟩ := ihr (i + 1) dropped
                rw [hes]
                exact ⟨_, rfl⟩
              · rw [if_neg h3]
                exact ihr (i + 1) dropped
        | num q => exact ihr (i + 1) dropped
        | bool b => exact ihr (i + 1) dropped
        | none => exact ihr (i + 1) dropped
        | list l => exact ihr (i + 1) dropped
        | dict d2 => exact ihr (i + 1) dropped
    | str s2 => simp [wfOrderStep] at hs
    | num q => simp [wfOrderStep] at hs
    | bool b => simp [wfOrderStep] at hs
    | none => simp [wfOrderStep] at hs
    | list l => simp [wfOrderStep] at hs

end ValidatorLemmas

section ReferentialLemmas

open PipelineValidator

/-- Processing a well-formed prefix of the referential pass only grows the
dropped set and prepends a fixed error block: the rest of the walk starts at
the advanced index with some superset of the dropped columns. -/
theorem stepOrderAux_prefix (pre : List PVal)
    (hwf : ∀ s ∈ pre, wfOrderStep s = true) :
    ∀ i dropped, ∃ es0 dropped2,
      (∀ v, dropped.any (fun d => PVal.beq v d) = true →
        dropped2.any (fun d => PVal.beq v d) = true)
      ∧ ∀ rest, stepOrderAux (pre ++ rest) i dropped =
          (stepOrderAux rest (i + pre.length) dropped2).map (fun es => es0 ++ es) := by
  induction pre with
  | nil =>
    intro i dropped
    refine ⟨[], dropped, fun v hv => hv, fun rest => ?_⟩
    simp only [List.nil_append, List.length_nil, Nat.add_zero]
    cases hr : stepOrderAux rest i dropped <;> simp [Except.map]
  | cons s pre' ih =>
    intro i dropped
    have hs := hwf s (List.mem_cons_self s pre')
    have ihr := ih (fun s hm => hwf s (List.mem_cons_of_mem _ hm))
    cases s with
    | dict step =>
      cases ho : dictGet step "op" with
      | none =>
        unfold wfOrderStep at hs
        dsimp only at hs
        rw [ho] at hs
        simp at hs
      | some op =>
        cases op with
        | str opName =>
          unfold wfOrderStep at hs
          dsimp only at hs
          rw [ho] at hs
          dsimp only at hs
          by_cases h1 : opName = "drop_columns"
          · rw [if_pos (by left; exact h1)] at hs
            obtain ⟨l, hl⟩ := iterable_ok _ hs
            obtain ⟨es0, dropped2, hmono, H⟩ := ihr (i + 1) (dropped ++ l)
            refine ⟨es0, dropped2, ?_, ?_⟩
            · intro v hv
              apply hmono
              rw [List.any_append]
              simp [hv]
            · intro rest
              simp only [List.cons_append, stepOrderAux, ho]
              rw [if_pos h1, hl]
              dsimp only
              simp only [List.append_eq]
              rw [H rest]
              rw [show i + 1 + pre'.length = i + (pre'.length + 1) from by omega]
              simp [List.length_cons]
          · by_cases h2 : opName = "fill_missing" ∨ opName = "remove_outliers"
                ∨ opName = "sort_by"
            · obtain ⟨es0, dropped2, hmono, H⟩ := ihr (i + 1) dropped
              refine ⟨(if dropped.any (fun d => PVal.beq (stepColParam step) d) then
                  ["Step " ++ toString (i + 1) ++ ": References dropped column '"
                    ++ pvalStr (stepColParam step) ++ "'"]
                else []) ++ es0, dropped2, hmono, ?_⟩
              intro rest
              simp only [List.cons_append, stepOrderAux, ho]
              rw [if_neg h1, if_pos h2]
              simp only [List.append_eq]
              rw [H rest]
              rw [show i + 1 + pre'.length = i + (pre'.length + 1) from by omega]
              simp only [List.length_cons]
              cases hr : stepOrderAux rest (i + (pre'.length + 1)) dropped2 <;>
                simp [Except.map, List.append_assoc]
            · by_cases h3 : opName = "scale_numeric" ∨ opName = "encode_categorical"
              · rw [if_pos (by rcases h3 with h3 | h3 <;> simp [h3])] at hs
                obtain ⟨l, hl⟩ := iterable_ok _ hs
                obtain ⟨es0, dropped2, hmono, H⟩ := ihr (i + 1) dropped
                refine ⟨(l.filterMap (fun c =>
                    if dropped.any (fun d => PVal.beq c d) then
                      some ("Step " ++ toString (i + 1)
                        ++ ": References dropped column '" ++ pvalStr c ++ "'")
                    else Option.none)) ++ es0, dropped2, hmono, ?_⟩
                intro rest
                simp only [List.cons_append, stepOrderAux, ho]
                rw [if_neg h1, if_neg h2, if_pos h3, hl]
                dsimp only
                simp only [List.append_eq]
                rw [H rest]
                rw [show i + 1 + pre'.length = i + (pre'.length + 1) from by omega]
                simp only [List.length_cons]
                cases hr : stepOrderAux rest (i + (pre'.length + 1)) dropped2 <;>
                  simp [Except.map, List.append_assoc]
              · obtain ⟨es0, dropped2, hmono, H⟩ := ihr (i + 1) dropped
                refine ⟨es0, dropped2, hmono, ?_⟩
                intro rest
                simp only [List.cons_append, stepOrderAux, ho]
                rw [if_neg h1, if_neg h2, if_neg h3]
                simp only [List.append_eq]
                rw [H rest]
                rw [show i + 1 + pre'.length = i + (pre'.length + 1) from by omega]
                simp [List.length_cons]
        | num q =>
          obtain ⟨es0, dropped2, hmono, H⟩ := ihr (i + 1) dropped
          refine ⟨es0, dropped2, hmono, fun rest => ?_⟩
          simp only [List.cons_append, stepOrderAux, ho]
          simp only [List.append_eq]
          rw [H rest]
          rw [show i + 1 + pre'.length = i + (pre'.length + 1) from by omega]
          simp [List.length_cons]
        | bool b =>
          obtain ⟨es0, dropped2, hmono, H⟩ := ihr (i + 1) dropped
          refine ⟨es0, dropped2, hmono, fun rest => ?_⟩
          simp only [List.cons_append, stepOrderAux, ho]
          simp only [List.append_eq]
          rw [H rest]
          rw [show i + 1 + pre'.length = i + (pre'.length + 1) from by omega]
          simp [List.length_cons]
        | none =>
          obtain ⟨es0, dropped2, hmono, H⟩ := ihr (i + 1) dropped
          refine ⟨es0, dropped2, hmono, fun rest => ?_⟩
          simp only [List.cons_append, stepOrderAux, ho]
          simp only [List.append_eq]
          rw [H rest]
          rw [show i + 1 + pre'.length = i + (pre'.length + 1) from by omega]
          simp [List.length_cons]
        | list l2 =>
          obtain ⟨es0, dropped2, hmono, H⟩ := ihr (i + 1) dropped
          refine ⟨es0, dropped2, hmono, fun rest => ?_⟩
          simp only [List.cons_append, stepOrderAux, ho]
          simp only [List.append_eq]
          rw [H rest]
          rw [show i + 1 + pre'.length = i + (pre'.length + 1) from by omega]
          simp [List.length_cons]
        | dict d2 =>
          obtain ⟨es0, dropped2, hmono, H⟩ := ihr (i + 1) dropped
          refine ⟨es0, dropped2, hmono, fun rest => ?_⟩
          simp only [List.cons_append, stepOrderAux, ho]
          simp only [List.append_eq]
          rw [H rest]
          rw [show i + 1 + pre'.length = i + (pre'.length + 1) from by omega]
          simp [List.length_cons]
    | str s2 => simp [wfOrderStep] at hs
    | num q => simp [wfOrderStep] at hs
    | bool b => simp [wfOrderStep] at hs
    | none => simp [wfOrderStep] at hs
    | list l2 => simp [wfOrderStep] at hs

end ReferentialLemmas

section EmissionLemma

open PipelineValidator

/-- Once a column `C` is in the dropped set, walking any well-formed steps
up to a step that references `C` (by its `column` parameter for
`fill_missing`/`remove_outliers`/`sort_by`, or its `columns` list for
`scale_numeric`/`encode_categorical`) succeeds and emits the referential
error naming that step's number and `C`. -/
theorem stepOrderAux_emits (C : String) (refD : List (String × PVal))
    (opName : String) (post : List PVal)
    (hpost : ∀ s ∈ post, wfOrderStep s = true)
    (hrefOp : dictGet refD "op" = some (.str opName))
    (hgroup :
      ((opName = "fill_missing" ∨ opName = "remove_outliers" ∨ opName = "sort_by")
        ∧ stepColParam refD = PVal.str C)
      ∨ ((opName = "scale_numeric" ∨ opName = "encode_categorical")
        ∧ ∃ cl, stepColsParam refD = PVal.list cl ∧ PVal.str C ∈ cl)) :
    ∀ (mid : List PVal), (∀ s ∈ mid, wfOrderStep s = true) →
    ∀ i dropped, dropped.any (fun d => PVal.beq (PVal.str C) d) = true →
    ∃ es, stepOrderAux (mid ++ PVal.dict refD :: post) i dropped = .ok es
      ∧ ("Step " ++ toString (i + mid.length + 1)
          ++ ": References dropped column '" ++ C ++ "'") ∈ es := by
  intro mid
  induction mid with
  | nil =>
    intro _ i dropped hC
    rcases hgroup with ⟨hops, hcol⟩ | ⟨hops, cl, hcols, hmem⟩
    · have hnd : opName ≠ "drop_columns" := by
        rcases hops with h | h | h <;> subst h <;> decide
      obtain ⟨es', hes'⟩ := stepOrderAux_ok post hpost (i + 1) dropped
      refine ⟨("Step " ++ toString (i + 1) ++ ": References dropped column '"
          ++ C ++ "'") :: es', ?_, by simp⟩
      simp only [List.nil_append, stepOrderAux, hrefOp]
      rw [if_neg hnd, if_pos hops, hcol]
      dsimp only [pvalStr]
      rw [if_pos hC, hes']
      simp [Except.map]
    · have hnd : opName ≠ "drop_columns" := by
        rcases hops with h | h <;> subst h <;> decide
      have hnf : ¬(opName = "fill_missing" ∨ opName = "remove_outliers"
          ∨ opName = "sort_by") := by
        rcases hops with h | h <;> subst h <;> decide
      obtain ⟨es', hes'⟩ := stepOrderAux_ok post hpost (i + 1) dropped
      refine ⟨(cl.filterMap (fun c =>
          if dropped.any (fun d => PVal.beq c d) then
            some ("Step " ++ toString (i + 1) ++ ": References dropped column '"
              ++ pvalStr c ++ "'")
          else Option.none)) ++ es', ?_, ?_⟩
      · simp only [List.nil_append, stepOrderAux, hrefOp]
        rw [if_neg hnd, if_neg hnf, if_pos hops, hcols]
        dsimp only [CleaningOperations.iterElemsPy]
        rw [hes']
        rfl
      · rw [List.mem_append]
        left
        rw [List.mem_filterMap]
        refine ⟨PVal.str C, hmem, ?_⟩
        rw [if_pos hC]
        simp [pvalStr]
  | cons s mid' ih =>
    intro hmid i dropped hC
    have hs := hmid s (List.mem_cons_self s mid')
    have hmid' : ∀ s ∈ mid', wfOrderStep s = true :=
      fun s hm => hmid s (List.mem_cons_of_mem _ hm)
    have harith : i + (s :: mid').length + 1 = (i + 1) + mid'.length + 1 := by
      simp only [List.length_cons]
      omega
    rw [harith]
    cases s with
    | dict step =>
      cases ho : dictGet step "op" with
      | none =>
        unfold wfOrderStep at hs
        dsimp only at hs
        rw [ho] at hs
        simp at hs
      | some op =>
        cases op with
        | str sName =>
          unfold wfOrderStep at hs
          dsimp only at hs
          rw [ho] at hs
          dsimp only at hs
          by_cases h1 : sName = "drop_columns"
          · rw [if_pos (by left; exact h1)] at hs
            obtain ⟨l, hl⟩ := iterable_ok _ hs
            have hC' : ((dropped ++ l).any (fun d => PVal.beq (PVal.str C) d)) = true := by
              rw [List.any_append]
              simp [hC]
            obtain ⟨es, hes, hm⟩ := ih hmid' (i + 1) (dropped ++ l) hC'
            refine ⟨es, ?_, hm⟩
            simp only [List.cons_append, stepOrderAux, ho]
            rw [if_pos h1, hl]
            dsimp only
            simp only [List.append_eq]
            exact hes
          · by_cases h2 : sName = "fill_missing" ∨ sName = "remove_outliers"
                ∨ sName = "sort_by"
            · obtain ⟨es, hes, hm⟩ := ih hmid' (i + 1) dropped hC
              refine ⟨(if dropped.any (fun d => PVal.beq (stepColParam step) d) then
                  ["Step " ++ toString (i + 1) ++ ": References dropped column '"
                    ++ pvalStr (stepColParam step) ++ "'"]
                else []) ++ es, ?_, ?_⟩
              · simp only [List.cons_append, stepOrderAux, ho]
                rw [if_neg h1, if_pos h2]
                simp only [List.append_eq]
                rw [hes]
                rfl
              · rw [List.mem_append]
                right
                exact hm
            · by_cases h3 : sName = "scale_numeric" ∨ sName = "encode_categorical"
              · rw [if_pos (by rcases h3 with h3 | h3 <;> simp [h3])] at hs
                obtain ⟨l, hl⟩ := iterable_ok _ hs
                obtain ⟨es, hes, hm⟩ := ih hmid' (i + 1) dropped hC
                refine ⟨(l.filterMap (fun c =>
                    if dropped.any (fun d => PVal.beq c d) then
                      some ("Step " ++ toString (i + 1)
                        ++ ": References dropped column '" ++ pvalStr c ++ "'")
                    else Option.none)) ++ es, ?_, ?_⟩
                · simp only [List.cons_append, stepOrderAux, ho]
                  rw [if_neg h1, if_neg h2, if_pos h3, hl]
                  dsimp only
                  simp only [List.append_eq]
                  rw [hes]
                  rfl
                · rw [List.mem_append]
                  right
                  exact hm
              · obtain ⟨es, hes, hm⟩ := ih hmid' (i + 1) dropped hC
                refine ⟨es, ?_, hm⟩
                simp only [List.cons_append, stepOrderAux, ho]
                rw [if_neg h1, if_neg h2, if_neg h3]
                simp only [List.append_eq]
                exact hes
        | num q =>
          obtain ⟨es, hes, hm⟩ := ih hmid' (i + 1) dropped hC
          refine ⟨es, ?_, hm⟩
          simp only [List.cons_append, stepOrderAux, ho]
          simp only [List.append_eq]
          exact hes
        | bool b =>
          obtain ⟨es, hes, hm⟩ := ih hmid' (i + 1) dropped hC
          refine ⟨es, ?_, hm⟩
          simp only [List.cons_append, stepOrderAux, ho]
          simp only [List.append_eq]
          exact hes
        | none =>
          obtain ⟨es, hes, hm⟩ := ih hmid' (i + 1) dropped hC
          refine ⟨es, ?_, hm⟩
          simp only [List.cons_append, stepOrderAux, ho]
          simp only [List.append_eq]
          exact hes
        | list l2 =>
          obtain ⟨es, hes, hm⟩ := ih hmid' (i + 1) dropped hC
          refine ⟨es, ?_, hm⟩
          simp only [List.cons_append, stepOrderAux, ho]
          simp only [List.append_eq]
          exact hes
        | dict d2 =>
          obtain ⟨es, hes, hm⟩ := ih hmid' (i + 1) dropped hC
          refine ⟨es, ?_, hm⟩
          simp only [List.cons_append, stepOrderAux, ho]
          simp only [List.append_eq]
          exact hes
    | str s2 => simp [wfOrderStep] at hs
    | num q => simp [wfOrderStep] at hs
    | bool b => simp [wfOrderStep] at hs
    | none => simp [wfOrderStep] at hs
    | list l2 => simp [wfOrderStep] at hs

end EmissionLemma


section C4Amended

open PipelineValidator

/-- C4 (amended): for every plan whose steps are well-formed mappings (each
step a dict with a string `op`, a mapping `params` when present, and an
iterable `columns` where the referential pass iterates it), if a
`drop_columns` step drops column `C` and a strictly later step among
`fill_missing`/`remove_outliers`/`sort_by` (by its `column` parameter) or
`scale_numeric`/`encode_categorical` (by its `columns` list) references `C`,
then `validate` returns `is_valid = false` with an error naming the
offending step's 1-based index and the column `C`.  (The unamended claim,
quantified over arbitrary plans, fails because `_validate_step_order`
evaluates `step["op"]` unguarded and can raise instead of rejecting.) -/
theorem validate_rejects_dropped_ref (p : Profile) (C : String)
    (dropD refD : List (String × PVal)) (opName : String)
    (pre mid post : List PVal) (plan : List (String × PVal))
    (hplan : dictGet plan "steps"
      = some (PVal.list (pre ++ PVal.dict dropD :: (mid ++ PVal.dict refD :: post))))
    (hwfc : ∀ s ∈ pre ++ PVal.dict dropD :: (mid ++ PVal.dict refD :: post),
      wfContractStep s = true)
    (hwfo : ∀ s ∈ pre ++ PVal.dict dropD :: (mid ++ PVal.dict refD :: post),
      wfOrderStep s = true)
    (hdropOp : dictGet dropD "op" = some (PVal.str "drop_columns"))
    (hdropCols : ∃ cl, stepColsParam dropD = PVal.list cl ∧ PVal.str C ∈ cl)
    (hrefOp : dictGet refD "op" = some (PVal.str opName))
    (hgroup :
      ((opName = "fill_missing" ∨ opName = "remove_outliers" ∨ opName = "sort_by")
        ∧ stepColParam refD = PVal.str C)
      ∨ ((opName = "scale_numeric" ∨ opName = "encode_categorical")
        ∧ ∃ cl, stepColsParam refD = PVal.list cl ∧ PVal.str C ∈ cl)) :
    ∃ errors, validate p plan = Except.ok (false, errors)
      ∧ ("Step " ++ toString (pre.length + 1 + mid.length + 1)
          ++ ": References dropped column '" ++ C ++ "'") ∈ errors := by
  obtain ⟨cl, hcl, hClmem⟩ := hdropCols
  have hwfo_pre : ∀ s ∈ pre, wfOrderStep s = true :=
    fun s hm => hwfo s (by simp [hm])
  have hwfo_mid : ∀ s ∈ mid, wfOrderStep s = true :=
    fun s hm => hwfo s (by simp [hm])
  have hwfo_post : ∀ s ∈ post, wfOrderStep s = true :=
    fun s hm => hwfo s (by simp [hm])
  obtain ⟨es0, dropped2, _, hpre⟩ := stepOrderAux_prefix pre hwfo_pre 0 []
  have hCany : ((dropped2 ++ cl).any (fun d => PVal.beq (PVal.str C) d)) = true := by
    rw [List.any_append]
    have h1 : cl.any (fun d => PVal.beq (PVal.str C) d) = true :=
      List.any_eq_true.mpr ⟨_, hClmem, by simp [PVal.beq]⟩
    simp [h1]
  obtain ⟨es, hes, hmem⟩ := stepOrderAux_emits C refD opName post hwfo_post hrefOp
    hgroup mid hwfo_mid (pre.length + 1) (dropped2 ++ cl) hCany
  have horder : stepOrderAux
      (pre ++ PVal.dict dropD :: (mid ++ PVal.dict refD :: post)) 0 []
      = Except.ok (es0 ++ es) := by
    rw [hpre]
    simp only [stepOrderAux, hdropOp]
    rw [if_pos trivial, hcl]
    dsimp only [CleaningOperations.iterElemsPy]
    simp only [Nat.zero_add]
    rw [hes]
    rfl
  obtain ⟨es1, hes1⟩ := stepErrorsAux_ok p _ hwfc 0
  refine ⟨es1 ++ (es0 ++ es), ?_, ?_⟩
  · unfold validate
    rw [hplan]
    dsimp only
    rw [hes1, horder]
    dsimp only
    have hne : es1 ++ (es0 ++ es) ≠ [] := by
      intro hnil
      have hmem2 : ("Step " ++ toString (pre.length + 1 + mid.length + 1)
          ++ ": References dropped column '" ++ C ++ "'") ∈ es1 ++ (es0 ++ es) :=
        List.mem_append_right _ (List.mem_append_right _ hmem)
      rw [hnil] at hmem2
      exact absurd hmem2 (List.not_mem_nil _)
    have hie : (es1 ++ (es0 ++ es)).isEmpty = false := by
      cases hcase : es1 ++ (es0 ++ es) with
      | nil => exact absurd hcase hne
      | cons a t => rfl
    rw [hie]
  · exact List.mem_append_right _ (List.mem_append_right _ hmem)

/-- C4 amended-theorem witness: the claim's own two-step plan against
`toyProfile` is rejected citing step 2 and column "age". -/
theorem validate_rejects_dropped_ref_witness :
    ∃ errors, validate toyProfile dropRefPlan = Except.ok (false, errors)
      ∧ ("Step " ++ toString (([] : List PVal).length + 1
            + ([] : List PVal).length + 1)
          ++ ": References dropped column '" ++ "age" ++ "'") ∈ errors :=
  validate_rejects_dropped_ref toyProfile "age" dropAgeStepD fillAgeStepD
    "fill_missing" [] [] [] dropRefPlan rfl
    (fun s hs => by fin_cases hs <;> rfl)
    (fun s hs => by fin_cases hs <;> rfl) rfl
    ⟨[PVal.str "age"], rfl, by simp⟩ rfl (Or.inl ⟨by simp, rfl⟩)

end C4Amended

section C2Sound

open PipelineValidator

/-- `_validate_drop_columns` accumulates no error when `columns` is a list
of existing column names. -/
theorem validateDropColumns_nil (p : Profile) (params : List (String × PVal))
    (pfx : String)
    (h : (match dictGet params "columns" with
          | some (PVal.list cols) => cols.all (fun c => memberStr c p.availableColumns)
          | _ => false) = true) :
    validateDropColumns p params pfx = [] := by
  unfold validateDropColumns
  cases hc : dictGet params "columns" with
  | none => rw [hc] at h; simp at h
  | some cv =>
    rw [hc] at h
    cases cv with
    | list cols =>
      dsimp only at h ⊢
      rw [List.filterMap_eq_nil_iff]
      intro c hcm
      rw [if_pos (List.all_eq_true.mp h c hcm)]
    | str s2 => simp at h
    | num q => simp at h
    | bool b => simp at h
    | none => simp at h
    | dict d => simp at h

/-- `_validate_fill_missing` accumulates no error when the column exists,
the strategy is legal and mean/median only hit numeric columns. -/
theorem validateFillMissing_nil (p : Profile) (params : List (String × PVal))
    (pfx : String)
    (h : (match dictGet params "column" with
          | some cv =>
            memberStr cv p.availableColumns &&
            memberStr (pyGet params "strategy" (PVal.str "mean")) FILL_STRATEGIES &&
            (!(pyGet params "strategy" (PVal.str "mean") == PVal.str "mean"
                || pyGet params "strategy" (PVal.str "mean") == PVal.str "median")
              || (typeOf p cv).any (fun t => t == "numeric" || t == "categorical_numeric"))
          | Option.none => false) = true) :
    validateFillMissing p params pfx = [] := by
  unfold validateFillMissing
  cases hc : dictGet params "column" with
  | none => rw [hc] at h; simp at h
  | some cv =>
    rw [hc] at h
    dsimp only at h
    rw [Bool.and_eq_true, Bool.and_eq_true] at h
    obtain ⟨⟨hm, hs⟩, hty⟩ := h
    simp only [hm, hs, Bool.not_true, Bool.false_eq_true, if_false, List.nil_append]
    rw [Bool.or_eq_true] at hty
    rcases hty with h1 | h2
    · rw [Bool.not_eq_true'] at h1
      simp [h1]
    · simp [h2]

/-- `_validate_remove_outliers` accumulates no error when the column exists,
is numeric, and the method is legal. -/
theorem validateRemoveOutliers_nil (p : Profile) (params : List (String × PVal))
    (pfx : String)
    (h : (match dictGet params "column" with
          | some cv =>
            memberStr cv p.availableColumns &&
            ((typeOf p cv).any (fun t => t == "numeric" || t == "categorical_numeric")) &&
            memberStr (pyGet params "method" (PVal.str "iqr")) OUTLIER_METHODS
          | Option.none => false) = true) :
    validateRemoveOutliers p params pfx = [] := by
  unfold validateRemoveOutliers
  cases hc : dictGet params "column" with
  | none => rw [hc] at h; simp at h
  | some cv =>
    rw [hc] at h
    dsimp only at h
    rw [Bool.and_eq_true, Bool.and_eq_true] at h
    obtain ⟨⟨hm, ht⟩, hme⟩ := h
    simp [hm, ht, hme]

/-- `_validate_scale_numeric` accumulates no error when every listed column
exists and is numeric and the method is legal. -/
theorem validateScaleNumeric_nil (p : Profile) (params : List (String × PVal))
    (pfx : String)
    (h : (match dictGet params "columns" with
          | some (PVal.list cols) =>
            cols.all (fun c => memberStr c p.availableColumns &&
              ((typeOf p c).any (fun t => t == "numeric" || t == "categorical_numeric"))) &&
            memberStr (pyGet params "method" (PVal.str "standard")) SCALING_METHODS
          | _ => false) = true) :
    validateScaleNumeric p params pfx = [] := by
  unfold validateScaleNumeric
  cases hc : dictGet params "columns" with
  | none => rw [hc] at h; simp at h
  | some cv =>
    rw [hc] at h
    cases cv with
    | list cols =>
      dsimp only at h ⊢
      rw [Bool.and_eq_true] at h
      obtain ⟨hall, hme⟩ := h
      have hflat : (cols.flatMap (fun c =>
          if !(memberStr c p.availableColumns) then
            [pfx ++ ": Column '" ++ pvalStr c ++ "' does not exist"]
          else if !((typeOf p c).any (fun t => t == "numeric" || t == "categorical_numeric")) then
            [pfx ++ ": Cannot scale non-numeric column '" ++ pvalStr c ++ "'"]
          else [])) = [] := by
        rw [List.flatMap_eq_nil_iff]
        intro c hcm
        have hc2 := List.all_eq_true.mp hall c hcm
        rw [Bool.and_eq_true] at hc2
        simp [hc2.1, hc2.2]
      rw [hflat, hme]
      rfl
    | str s2 => simp at h
    | num q => simp at h
    | bool b => simp at h
    | none => simp at h
    | dict d => simp at h

/-- `_validate_encode_categorical` accumulates no error when every listed
column exists and the method is legal. -/
theorem validateEncodeCategorical_nil (p : Profile) (params : List (String × PVal))
    (pfx : String)
    (h : (match dictGet params "columns" with
          | some (PVal.list cols) =>
            cols.all (fun c => memberStr c p.availableColumns) &&
            memberStr (pyGet params "method" (PVal.str "onehot")) ENCODING_METHODS
          | _ => false) = true) :
    validateEncodeCategorical p params pfx = [] := by
  unfold validateEncodeCategorical
  cases hc : dictGet params "columns" with
  | none => rw [hc] at h; simp at h
  | some cv =>
    rw [hc] at h
    cases cv with
    | list cols =>
      dsimp only at h ⊢
      rw [Bool.and_eq_true] at h
      obtain ⟨hall, hme⟩ := h
      have hfm : (cols.filterMap (fun c =>
          if memberStr c p.availableColumns then Option.none
          else some (pfx ++ ": Column '" ++ pvalStr c ++ "' does not exist"))) = [] := by
        rw [List.filterMap_eq_nil_iff]
        intro c hcm
        rw [if_pos (List.all_eq_true.mp hall c hcm)]
      rw [hfm, hme]
      rfl
    | str s2 => simp at h
    | num q => simp at h
    | bool b => simp at h
    | none => simp at h
    | dict d => simp at h

/-- `_validate_sort_by` accumulates no error when the column exists. -/
theorem validateSortBy_nil (p : Profile) (params : List (String × PVal))
    (pfx : String)
    (h : (match dictGet params "column" with
          | some cv => memberStr cv p.availableColumns
          | Option.none => false) = true) :
    validateSortBy p params pfx = [] := by
  unfold validateSortBy
  cases hc : dictGet params "column" with
  | none => rw [hc] at h; simp at h
  | some cv =>
    rw [hc] at h
    dsimp only at h
    simp [h]

end C2Sound

section C2SoundMain

open PipelineValidator

/-- `_validate_step` reports no error on a step that passes all its
contract checks. -/
theorem validateStep_nil (p : Profile) (s : PVal)
    (h : stepChecksOK p s = true) :
    ∀ i, validateStep p s i = Except.ok [] := by
  intro i
  cases s with
  | dict step =>
    unfold stepChecksOK at h
    unfold validateStep
    dsimp only at h ⊢
    cases ho : dictGet step "op" with
    | none => rw [ho] at h; simp at h
    | some op =>
      rw [ho] at h
      cases op with
      | str opName =>
        dsimp only at h ⊢
        rw [if_neg (by
          dsimp only [memberStr]
          have hv0 : VALID_OPERATIONS.contains opName = true := by
            cases hp0 : (dictGet step "params").getD (PVal.dict []) with
            | dict params => rw [hp0] at h; dsimp only at h;
                             exact (Bool.and_eq_true _ _ ▸ h).1
            | str s2 => rw [hp0] at h; simp at h
            | num q => rw [hp0] at h; simp at h
            | bool b => rw [hp0] at h; simp at h
            | none => rw [hp0] at h; simp at h
            | list l => rw [hp0] at h; simp at h
          rw [hv0]
          simp)]
        cases hp : (dictGet step "params").getD (PVal.dict []) with
        | dict params =>
          dsimp only
          rw [hp] at h
          dsimp only at h
          rw [Bool.and_eq_true] at h
          obtain ⟨hv, hbody⟩ := h
          have hmem : opName ∈ VALID_OPERATIONS := by simpa using hv
          simp only [VALID_OPERATIONS, List.mem_cons, List.not_mem_nil,
            or_false] at hmem
          rcases hmem with rfl | rfl | rfl | rfl | rfl | rfl | rfl | rfl | rfl
          · rw [if_neg (by decide), if_neg (by decide), if_neg (by decide),
              if_neg (by decide), if_neg (by decide), if_neg (by decide)]
          · rw [if_pos (by decide)]
            rw [if_pos rfl] at hbody
            rw [validateDropColumns_nil p params _ hbody]
          · rw [if_neg (by decide), if_pos (by decide)]
            rw [if_neg (by decide), if_pos rfl] at hbody
            rw [validateFillMissing_nil p params _ hbody]
          · rw [if_neg (by decide), if_neg (by decide), if_pos (by decide)]
            rw [if_neg (by decide), if_neg (by decide), if_pos rfl] at hbody
            rw [validateRemoveOutliers_nil p params _ hbody]
          · rw [if_neg (by decide), if_neg (by decide), if_neg (by decide),
              if_pos (by decide)]
            rw [if_neg (by decide), if_neg (by decide), if_neg (by decide),
              if_pos rfl] at hbody
            rw [validateScaleNumeric_nil p params _ hbody]
          · rw [if_neg (by decide), if_neg (by decide), if_neg (by decide),
              if_neg (by decide), if_pos (by decide)]
            rw [if_neg (by decide), if_neg (by decide), if_neg (by decide),
              if_neg (by decide), if_pos rfl] at hbody
            rw [validateEncodeCategorical_nil p params _ hbody]
          · rw [if_neg (by decide), if_neg (by decide), if_neg (by decide),
              if_neg (by decide), if_neg (by decide), if_neg (by decide)]
          · rw [if_neg (by decide), if_neg (by decide), if_neg (by decide),
              if_neg (by decide), if_neg (by decide), if_pos (by decide)]
            rw [if_neg (by decide), if_neg (by decide), if_neg (by decide),
              if_neg (by decide), if_neg (by decide), if_pos rfl] at hbody
            rw [validateSortBy_nil p params _ hbody]
          · rw [if_neg (by decide), if_neg (by decide), if_neg (by decide),
              if_neg (by decide), if_neg (by decide), if_neg (by decide)]
        | str s2 => rw [hp] at h; simp at h
        | num q => rw [hp] at h; simp at h
        | bool b => rw [hp] at h; simp at h
        | none => rw [hp] at h; simp at h
        | list l => rw [hp] at h; simp at h
      | num q => dsimp only at h; simp at h
      | bool b => dsimp only at h; simp at h
      | none => dsimp only at h; simp at h
      | list l => dsimp only at h; simp at h
      | dict d2 => dsimp only at h; simp at h
  | str s2 => simp [stepChecksOK] at h
  | num q => simp [stepChecksOK] at h
  | bool b => simp [stepChecksOK] at h
  | none => simp [stepChecksOK] at h
  | list l => simp [stepChecksOK] at h

/-- The per-step pass reports no error on steps that all pass their
contract checks. -/
theorem stepErrorsAux_nil (p : Profile) (steps : List PVal)
    (h : ∀ s ∈ steps, stepChecksOK p s = true) :
    ∀ i, stepErrorsAux p steps i = Except.ok [] := by
  induction steps with
  | nil => intro i; rfl
  | cons s rest ih =>
    intro i
    unfold stepErrorsAux
    rw [validateStep_nil p s (h s (List.mem_cons_self s rest)) i]
    dsimp only
    rw [ih (fun s hm => h s (List.mem_cons_of_mem _ hm)) (i + 1)]
    rfl

/-- The referential pass reports no error on a step list that passes the
forward dropped-column simulation. -/
theorem stepOrderAux_nil (steps : List PVal) :
    ∀ dropped, noDroppedRefsAux dropped steps = true →
    ∀ i, stepOrderAux steps i dropped = Except.ok [] := by
  induction steps with
  | nil => intro dropped _ i; rfl
  | cons s rest ih =>
    intro dropped h i
    unfold noDroppedRefsAux at h
    unfold stepOrderAux
    cases s with
    | dict step =>
      dsimp only at h ⊢
      cases ho : dictGet step "op" with
      | none => rw [ho] at h; simp at h
      | some op =>
        rw [ho] at h
        cases op with
        | str opName =>
          dsimp only at h ⊢
          by_cases h1 : opName = "drop_columns"
          · rw [if_pos h1] at h ⊢
            cases hc : stepColsParam step with
            | list cols =>
              rw [hc] at h
              dsimp only [CleaningOperations.iterElemsPy] at h ⊢
              exact ih (dropped ++ cols) h (i + 1)
            | str s2 => rw [hc] at h; simp at h
            | num q => rw [hc] at h; simp at h
            | bool b => rw [hc] at h; simp at h
            | none => rw [hc] at h; simp at h
            | dict d => rw [hc] at h; simp at h
          · rw [if_neg h1] at h ⊢
            by_cases h2 : opName = "fill_missing" ∨ opName = "remove_outliers"
                ∨ opName = "sort_by"
            · rw [if_pos h2] at h ⊢
              rw [Bool.and_eq_true] at h
              obtain ⟨hnot, hrest⟩ := h
              rw [Bool.not_eq_true'] at hnot
              rw [ih dropped hrest (i + 1), hnot]
              simp [Except.map]
            · rw [if_neg h2] at h ⊢
              by_cases h3 : opName = "scale_numeric" ∨ opName = "encode_categorical"
              · rw [if_pos h3] at h ⊢
                cases hc : stepColsParam step with
                | list cols =>
                  rw [hc] at h
                  dsimp only [CleaningOperations.iterElemsPy] at h ⊢
                  rw [Bool.and_eq_true] at h
                  obtain ⟨hall, hrest⟩ := h
                  rw [ih dropped hrest (i + 1)]
                  have hfm : cols.filterMap (fun c =>
                      if dropped.any (fun d => PVal.beq c d) then
                        some ("Step " ++ toString (i + 1)
                          ++ ": References dropped column '" ++ pvalStr c ++ "'")
                      else Option.none) = [] := by
                    rw [List.filterMap_eq_nil_iff]
                    intro c hcm
                    have hc2 := List.all_eq_true.mp hall c hcm
                    rw [Bool.not_eq_true'] at hc2
                    rw [if_neg (by rw [hc2]; simp)]
                  simp only [Except.map]
                  rw [List.append_nil, hfm]
                | str s2 => rw [hc] at h; simp at h
                | num q => rw [hc] at h; simp at h
                | bool b => rw [hc] at h; simp at h
                | none => rw [hc] at h; simp at h
                | dict d => rw [hc] at h; simp at h
              · rw [if_neg h3] at h ⊢
                exact ih dropped h (i + 1)
        | num q => dsimp only at h; simp at h
        | bool b => dsimp only at h; simp at h
        | none => dsimp only at h; simp at h
        | list l => dsimp only at h; simp at h
        | dict d2 => dsimp only at h; simp at h
    | str s2 => simp [noDroppedRefsAux] at h
    | num q => simp [noDroppedRefsAux] at h
    | bool b => simp [noDroppedRefsAux] at h
    | none => simp [noDroppedRefsAux] at h
    | list l => simp [noDroppedRefsAux] at h

end C2SoundMain

section C2Main

open PipelineValidator

/-- C2 (amended): for every plan each of whose steps uses an operation name
drawn from the validator's closed 9-name set `VALID_OPERATIONS`
(drop_duplicates, drop_columns, fill_missing, remove_outliers,
scale_numeric, encode_categorical, create_feature, sort_by, filter_rows)
and passes the parameter, column-existence and column-kind checks
(`stepChecksOK`), and whose step sequence passes the referential check
(`noDroppedRefs`), `validate` returns `is_valid = true` with an empty error
list.  (The unamended claim named a 15-name enum; the validator's set has
only nine names, and a step using any of the other six executor operations
is rejected with an "Unknown operation" error — see the counterexample.) -/
theorem validate_sound (p : Profile) (steps : List PVal)
    (plan : List (String × PVal))
    (hplan : dictGet plan "steps" = some (PVal.list steps))
    (hchecks : ∀ s ∈ steps, stepChecksOK p s = true)
    (hrefs : noDroppedRefs steps = true) :
    validate p plan = Except.ok (true, []) := by
  unfold validate
  rw [hplan]
  dsimp only
  rw [stepErrorsAux_nil p steps hchecks 0]
  dsimp only
  rw [stepOrderAux_nil steps [] hrefs 0]
  rfl

/-- C2 amended-theorem witness: the five-step `soundPlan` against
`toyProfile` validates cleanly. -/
theorem validate_sound_witness :
    validate toyProfile soundPlan = Except.ok (true, []) :=
  validate_sound toyProfile soundPlanSteps soundPlan rfl
    (fun s hs => by fin_cases hs <;> rfl) rfl

end C2Main
